import Mathlib

/-!
# FiveM Cache Cleaner: a shallow embedding and its verified properties

The development follows `main.go` (installation locator, cache cleaner) and
`versionchecker.go` (release checker, self-updater).

Go strings are modelled by Lean `String`s.  The functions of Go's `strings`
and `fmt` packages that the program calls are written out below on the
underlying character lists.  Calls into the operating system (registry, file
system, HTTP, process control) are oracles collected in a host record; every
effect the program performs is appended to a ghost trace.
-/

namespace FiveM

/-! ## Go library: `strings` -/

/-- Go `strings.Index` on character lists: the first position at which `sep`
occurs in `s`; `none` stands for Go's `-1`. -/
def indexChars : List Char → List Char → Option Nat
  | [], sep => if sep.isEmpty then some 0 else none
  | c :: s, sep =>
    if sep.isPrefixOf (c :: s) then some 0 else (indexChars s sep).map (· + 1)

/-- Loop of Go `strings.genSplit` (with `sepSave = 0`): cut at the first
occurrence of `sep`, continue with what follows it.  The fuel bounds the number
of cuts; `s.length` always suffices for a non-empty separator. -/
def genSplit : Nat → List Char → List Char → List (List Char)
  | 0, s, _ => [s]
  | fuel + 1, s, sep =>
    match indexChars s sep with
    | none => [s]
    | some m => s.take m :: genSplit fuel (s.drop (m + sep.length)) sep

/-- Go `strings.Split(s, sep)` on character lists.  An empty separator explodes
the string into its characters. -/
def splitChars (s sep : List Char) : List (List Char) :=
  if sep.isEmpty then s.map (fun c => [c]) else genSplit s.length s sep

/-- Go `strings.Trim(s, cutset)` on character lists: `TrimLeft` of `TrimRight`. -/
def trimChars (s cutset : List Char) : List Char :=
  (s.rdropWhile (fun c => cutset.contains c)).dropWhile (fun c => cutset.contains c)

/-- Go `strings.HasSuffix`. -/
def hasSuffixChars (s suffix : List Char) : Bool :=
  decide (suffix.length ≤ s.length) && (s.drop (s.length - suffix.length) == suffix)

/-- Go `strings.TrimSuffix` on character lists. -/
def trimSuffixChars (s suffix : List Char) : List Char :=
  if hasSuffixChars s suffix then s.take (s.length - suffix.length) else s

/-- Go `strings.Split`. -/
def Split (s sep : String) : List String :=
  (splitChars s.data sep.data).map String.mk

/-- Go `strings.Trim`. -/
def Trim (s cutset : String) : String :=
  ⟨trimChars s.data cutset.data⟩

/-- Go `strings.TrimSuffix`. -/
def TrimSuffix (s suffix : String) : String :=
  ⟨trimSuffixChars s.data suffix.data⟩

/-! ## Go library: `fmt` -/

/-- Go `fmt.Sprintf` restricted to what the program uses: the verbs `%s` and
`%v` applied to strings and to errors (an error prints as its message), and
`%%`.  A verb without an operand prints Go's `%!s(MISSING)` form. -/
def sprintfChars : List Char → List String → List Char
  | [], _ => []
  | ['%'], _ => "%!(NOVERB)".data
  | '%' :: '%' :: fmt, args => '%' :: sprintfChars fmt args
  | '%' :: v :: fmt, [] => "%!".data ++ v :: "(MISSING)".data ++ sprintfChars fmt []
  | '%' :: v :: fmt, a :: args =>
    if v = 's' ∨ v = 'v' then a.data ++ sprintfChars fmt args
    else "%!".data ++ v :: "(string=".data ++ a.data ++ ')' :: sprintfChars fmt args
  | c :: fmt, args => c :: sprintfChars fmt args

/-- Go `fmt.Sprintf`; `fmt.Errorf` builds its message the same way. -/
def Sprintf (format : String) (args : List String) : String :=
  ⟨sprintfChars format.data args⟩

/-! ## `main.go`: installation locator and cache cleaner -/

/-- Registry key (below `HKEY_CLASSES_ROOT`) holding the protocol handler command. -/
def registryPath : String := "FiveM.ProtocolHandler\\shell\\open\\command"

/-- Flag `MB_YESNO` of the Windows message box. -/
def MB_YESNO : Nat := 0x4

/-- Return value `IDYES` of the Windows message box. -/
def IDYES : Nat := 6

/-- The fixed, ordered list of cache directory names. -/
def cacheFolders : List String := ["cache", "server-cache", "server-cache-priv"]

/-- What `os.Stat` reports about an entry (Go `fs.FileInfo`); only the kind of
the entry matters here. -/
structure FileInfo where
  IsDir : Bool
  deriving DecidableEq, Repr

/-- Operating-system calls made by the cleaner, as oracles over a file-system
state `FS`.  An error is `some message`, Go's `nil` is `none`.
* `Join` is `filepath.Join`;
* `Stat fs p` is `os.Stat(p)`: an error, or the description of the entry found at `p`;
* `RemoveAll fs p` is `os.RemoveAll(p)`: the file system afterwards and the error;
* `OpenKey k` is the error of `registry.OpenKey(registry.CLASSES_ROOT, k, registry.QUERY_VALUE)`;
* `GetStringValue k name` is `key.GetStringValue(name)` on the key opened at `k`;
* `MessageBox text caption flags` is the button the user presses;
* `Start exe` is the error of `exec.Command(exe).Start()`. -/
structure Host (FS : Type) where
  Join : List String → String
  Stat : FS → String → Except String FileInfo
  RemoveAll : FS → String → FS × Option String
  OpenKey : String → Option String
  GetStringValue : String → String → Except String String
  MessageBox : String → String → Nat → Nat
  Start : String → Option String

/-- Observable effects of the cleaner, in the order they happen. -/
inductive Event where
  /-- The call `logOutput.AppendText(message + "\r\n")`. -/
  | log (message : String)
  /-- The call `logOutput.SetText("")`. -/
  | clearLog
  /-- The calls `cleanButton.SetEnabled(enabled)` and `cleanButton.SetText(text)`. -/
  | button (enabled : Bool) (text : String)
  /-- The call `os.RemoveAll(path)` and the error it returned. -/
  | removeAll (path : String) (err : Option String)
  /-- A write of the flag `isRunning`. -/
  | running (value : Bool)
  /-- The relaunch prompt. -/
  | messageBox (answer : Nat)
  /-- The call `exec.Command(exe).Start()` and the error it returned. -/
  | start (exe : String) (err : Option String)
  deriving DecidableEq, Repr

/-- State of the program after `createMainWindow`: the fields `paths` and
`isRunning` of `FiveMCacheCleaner`, the global `FivemExec`, the file system, and
the ghost trace of effects. -/
structure FiveMCacheCleaner (FS : Type) where
  paths : List String
  isRunning : Bool
  FivemExec : String
  fs : FS
  trace : List Event

/-- How a call ends: it returns, the process exits (`os.Exit`), or it panics. -/
inductive Outcome (σ : Type) where
  | returned (s : σ)
  | exited (code : Int) (s : σ)
  | panicked (err : String) (s : σ)

/-- State in which a call ended. -/
def Outcome.state {σ : Type} : Outcome σ → σ
  | .returned s => s
  | .exited _ s => s
  | .panicked _ s => s

variable {FS : Type}

/-- Append one effect to the ghost trace. -/
def FiveMCacheCleaner.emit (f : FiveMCacheCleaner FS) (e : Event) : FiveMCacheCleaner FS :=
  { f with trace := f.trace ++ [e] }

/-- Method `log`. -/
def FiveMCacheCleaner.log (f : FiveMCacheCleaner FS) (message : String) : FiveMCacheCleaner FS :=
  f.emit (.log message)

/-- Method `updateButtonState`. -/
def FiveMCacheCleaner.updateButtonState (f : FiveMCacheCleaner FS) (enabled : Bool)
    (text : String) : FiveMCacheCleaner FS :=
  f.emit (.button enabled text)

/-- Method `clearLog`. -/
def FiveMCacheCleaner.clearLog (f : FiveMCacheCleaner FS) : FiveMCacheCleaner FS :=
  f.emit .clearLog

/-- A write `f.isRunning = value` under the lock. -/
def FiveMCacheCleaner.setRunning (f : FiveMCacheCleaner FS) (value : Bool) : FiveMCacheCleaner FS :=
  { f with isRunning := value, trace := f.trace ++ [Event.running value] }

/-- Method `isFiveMInstallation`: the file information returned by `os.Stat`
is discarded, only `err == nil` is tested. -/
def isFiveMInstallation (host : Host FS) (fs : FS) (path : String) : Bool :=
  if path = "" then false
  else
    match host.Stat fs (host.Join [path, "data"]) with
    | .ok _ => true
    | .error _ => false

/-- A directory exists at `p`, in the words of the specification ("marker
subdirectory", "cache directories"): `os.Stat` finds an entry there and the
entry is a directory. -/
def isDirectory (host : Host FS) (fs : FS) (p : String) : Bool :=
  match host.Stat fs p with
  | .ok info => info.IsDir
  | .error _ => false

/-- The expression `strings.Trim(strings.Split(value, "\" ")[0], "\"")` of
`detectFiveMPath`: the executable path inside a registry command line.
`strings.Split` with a non-empty separator never returns an empty slice, so the
default of `headD` is never used. -/
def parseExec (value : String) : String :=
  Trim ((Split value "\" ").headD "") "\""

/-- Method `detectFiveMPath`: the state afterwards and the returned error. -/
def detectFiveMPath (host : Host FS) (f : FiveMCacheCleaner FS) :
    FiveMCacheCleaner FS × Option String :=
  let f := { f with paths := [] }
  let f := f.log "Looking for FiveM installation..."
  match host.OpenKey registryPath with
  | some err => (f, some (Sprintf "error opening registry key: %v" [err]))
  | none =>
    match host.GetStringValue registryPath "" with
    | .error err => (f, some (Sprintf "error reading registry value: %v" [err]))
    | .ok value =>
      let path := parseExec value
      let path := TrimSuffix path "FiveM.exe"
      let path := host.Join [path, "FiveM.app"]
      let f := { f with FivemExec := parseExec value }
      if isFiveMInstallation host f.fs path then
        let f := { f with paths := f.paths ++ [path] }
        let f := f.log (Sprintf "✓ Found FiveM installation at: %s" [path])
        (f, none)
      else
        (f, some (Sprintf "no valid FiveM installation found" []))

/-- Inner loop of `cleanCacheFolders`: remove each cache folder beneath
`dataPath` and log the outcome. -/
def removeFolders (host : Host FS) (dataPath : String) :
    List String → FiveMCacheCleaner FS → FiveMCacheCleaner FS
  | [], f => f
  | folder :: rest, f =>
    let fullPath := host.Join [dataPath, folder]
    let r := host.RemoveAll f.fs fullPath
    let f := { f with fs := r.1, trace := f.trace ++ [Event.removeAll fullPath r.2] }
    let f :=
      match r.2 with
      | some err => f.log (Sprintf "❌ Error removing %s: %v" [folder, err])
      | none => f.log (Sprintf "✓ Removed %s" [folder])
    removeFolders host dataPath rest f

/-- Outer loop of `cleanCacheFolders` over the copied list of paths. -/
def cleanPaths (host : Host FS) : List String → FiveMCacheCleaner FS → FiveMCacheCleaner FS
  | [], f => f
  | path :: rest, f =>
    let dataPath := host.Join [path, "data"]
    let f := f.log "\nCleaning cache folders:"
    let f := removeFolders host dataPath cacheFolders f
    cleanPaths host rest f

/-- First part of `cleanCacheFolders` (up to and including the completion
message): the cleaning pass. -/
def cleaningPass (host : Host FS) (f : FiveMCacheCleaner FS) : FiveMCacheCleaner FS :=
  let paths := f.paths
  let f := cleanPaths host paths f
  f.log "\n✨ Cache cleaning completed successfully!"

/-- Method `cleanCacheFolders`: the cleaning pass, then the relaunch prompt,
which ends the process on either answer. -/
def cleanCacheFolders (host : Host FS) (f : FiveMCacheCleaner FS) :
    Outcome (FiveMCacheCleaner FS) :=
  let f := cleaningPass host f
  let ret := host.MessageBox "Do you want to run FiveM?" "Cache finished!" MB_YESNO
  let f := f.emit (.messageBox ret)
  if ret = IDYES then
    let err := host.Start f.FivemExec
    let f := f.emit (.start f.FivemExec err)
    match err with
    | some e => .panicked e f
    | none => .exited 0 f
  else
    .exited (-1) f

/-- Body of `cleanCache` between setting the flag and the deferred reset. -/
def cleanCacheBody (host : Host FS) (f : FiveMCacheCleaner FS) :
    Outcome (FiveMCacheCleaner FS) :=
  let f := f.updateButtonState false "Cleaning..."
  let f := f.clearLog
  match detectFiveMPath host f with
  | (f, some err) =>
    let f := f.log (Sprintf "❌ %v" [err])
    let f := f.updateButtonState true "Clean FiveM Cache"
    .returned f
  | (f, none) =>
    match cleanCacheFolders host f with
    | .returned f => .returned (f.updateButtonState true "Clean FiveM Cache")
    | o => o

/-- Method `cleanCache`.  The deferred reset of `isRunning` runs when the body
returns or panics; `os.Exit` skips deferred calls. -/
def cleanCache (host : Host FS) (f : FiveMCacheCleaner FS) : Outcome (FiveMCacheCleaner FS) :=
  if f.isRunning then .returned f
  else
    let f := f.setRunning true
    match cleanCacheBody host f with
    | .returned f => .returned (f.setRunning false)
    | .panicked e f => .panicked e (f.setRunning false)
    | .exited c f => .exited c f

/-- The `os.RemoveAll` calls recorded in a trace, in order. -/
def removals : List Event → List String
  | [] => []
  | .removeAll p _ :: t => p :: removals t
  | _ :: t => removals t

/-- A small concrete host used to exercise the model.  The file system is the
list of existing entries, each a path and whether it is a directory; paths are
joined with a single backslash; `os.RemoveAll` deletes the entry at the path,
file or directory, with everything beneath it, and never fails; the registry
holds `value`, and the user answers `answer`. -/
def demoHost (value : String) (answer : Nat) : Host (List (String × Bool)) where
  Join := fun parts =>
    "\\".intercalate ((parts.filter (fun p => p ≠ "")).map (fun p => TrimSuffix p "\\"))
  Stat := fun fs p =>
    match fs.find? (fun entry => entry.1 = p) with
    | some entry => .ok { IsDir := entry.2 }
    | none => .error "The system cannot find the file specified."
  RemoveAll := fun fs p =>
    if fs.any (fun entry => entry.1 = p) then
      (fs.filter (fun entry =>
        decide (entry.1 ≠ p) && !(p ++ "\\").data.isPrefixOf entry.1.data), none)
    else (fs, none)
  OpenKey := fun _ => none
  GetStringValue := fun _ _ => .ok value
  MessageBox := fun _ _ _ => answer
  Start := fun _ => none

/-- The demo host with one path that `os.RemoveAll` cannot remove. -/
def demoLockedHost (locked : String) : Host (List (String × Bool)) where
  Join := (demoHost "" 6).Join
  Stat := (demoHost "" 6).Stat
  RemoveAll := fun fs p =>
    if p = locked then (fs, some "Access is denied.") else (demoHost "" 6).RemoveAll fs p
  OpenKey := fun _ => none
  GetStringValue := fun _ _ => .ok ""
  MessageBox := fun _ _ _ => 6
  Start := fun _ => none

/-- A cleaner state over the demo file system, with a stale entry in the list
of discovered paths. -/
def demoCleaner (fs : List (String × Bool)) : FiveMCacheCleaner (List (String × Bool)) :=
  { paths := ["stale"], isRunning := false, FivemExec := "", fs := fs, trace := [] }

/-! ## `versionchecker.go`: release checker and self-updater -/

/-- One downloadable file of a release. -/
structure ReleaseAsset where
  Name : String
  BrowserDownloadURL : String
  TagName : String
  deriving DecidableEq, Repr

/-- The decoded release feed. -/
structure Release where
  Assets : List ReleaseAsset
  TagName : String
  deriving DecidableEq, Repr

/-- The fields `owner` and `repo` of `UpdateManager`; its HTTP client is part of
the host below. -/
structure UpdateManager where
  owner : String
  repo : String

/-- Operating-system and network calls made by the updater, as oracles.  An
error is `some message`, Go's `nil` is `none`.
* `Executable` is `os.Executable()`; `Dir`, `Join` are `filepath.Dir`, `filepath.Join`;
* `MkdirAll p` is the error of `os.MkdirAll(p, 0755)`;
* `Get url` is `um.client.Get(url)`: a transport error, or the response body;
* `Decode body` is `json.NewDecoder(body).Decode(&release)`;
* `Create p` is the error of `os.Create(p)`;
* `CopyBuffer p body` is the error of `io.CopyBuffer` writing `body` to the file at `p`;
* `WriteFile p content` is the error of `os.WriteFile(p, content, 0755)`;
* `Start name args` is the error of `exec.Command(name, args...).Start()`. -/
structure UpdateHost where
  Executable : Except String String
  Dir : String → String
  Join : List String → String
  MkdirAll : String → Option String
  Get : String → Except String String
  Decode : String → Except String Release
  Create : String → Option String
  CopyBuffer : String → String → Option String
  WriteFile : String → String → Option String
  Start : String → List String → Option String

/-- Effects of the updater, in the order they happen. -/
inductive UpdateEvent where
  | mkdirAll (path : String)
  | get (url : String)
  | create (path : String)
  | copy (path : String)
  | writeFile (path : String) (content : String)
  | start (name : String) (args : List String)
  deriving DecidableEq, Repr

/-- How `DownloadLatestAsset` ends: it returns an error value (`none` is Go's
`nil`), or the process exits. -/
inductive UpdateResult where
  | returned (err : Option String)
  | exited (code : Int)
  deriving DecidableEq, Repr

/-- Address of the release feed, as both `getAssetURL` and `GetLatestVersion`
build it. -/
def releaseURL (um : UpdateManager) : String :=
  Sprintf "https://api.github.com/repos/%s/%s/releases/latest" [um.owner, um.repo]

/-- The loop of `getAssetURL` over `release.Assets`, with the `errors.New`
after it. -/
def scanAssets : List ReleaseAsset → String → Except String String
  | [], _ => .error "asset not found"
  | asset :: rest, assetName =>
    if asset.Name = assetName then .ok asset.BrowserDownloadURL
    else scanAssets rest assetName

/-- Method `getAssetURL`: the effects and the result. -/
def getAssetURL (h : UpdateHost) (um : UpdateManager) (assetName : String) :
    List UpdateEvent × Except String String :=
  let url := releaseURL um
  match h.Get url with
  | .error err => ([.get url], .error (Sprintf "failed to fetch release data: %v" [err]))
  | .ok body =>
    match h.Decode body with
    | .error err => ([.get url], .error (Sprintf "failed to decode release data: %v" [err]))
    | .ok release => ([.get url], scanAssets release.Assets assetName)

/-- Method `downloadFile`: the effects and the returned error. -/
def downloadFile (h : UpdateHost) (url destPath : String) : List UpdateEvent × Option String :=
  match h.Get url with
  | .error err => ([.get url], some (Sprintf "failed to download asset: %v" [err]))
  | .ok body =>
    match h.Create destPath with
    | some err => ([.get url, .create destPath], some (Sprintf "failed to create file: %v" [err]))
    | none => ([.get url, .create destPath, .copy destPath], h.CopyBuffer destPath body)

/-- The text `scriptContent` built in `createAndExecuteUpdateScript`. -/
def scriptContent (exePath tempPath updateScript : String) : String :=
  Sprintf "@echo off\ntimeout /t 1 /nobreak >nul\ndel \"%s\"\nmove \"%s\" \"%s\"\nstart \"\" \"%s\"\ndel \"%s\"\n"
    [exePath, tempPath, exePath, exePath, updateScript]

/-- Method `createAndExecuteUpdateScript`: the effects and the returned error. -/
def createAndExecuteUpdateScript (h : UpdateHost) (exePath tempPath tmpDir : String) :
    List UpdateEvent × Option String :=
  let updateScript := h.Join [tmpDir, "update.bat"]
  let content := scriptContent exePath tempPath updateScript
  match h.WriteFile updateScript content with
  | some err =>
    ([.writeFile updateScript content], some (Sprintf "failed to create update script: %v" [err]))
  | none =>
    ([.writeFile updateScript content, .start "cmd" ["/C", updateScript]],
      h.Start "cmd" ["/C", updateScript])

/-- The local `tmpDir` of `DownloadLatestAsset`: the scratch directory next to
the running executable. -/
def tmpDir (h : UpdateHost) (exePath : String) : String :=
  h.Join [h.Dir exePath, "temp_update"]

/-- The local `tempPath` of `DownloadLatestAsset`: where the asset is downloaded to. -/
def tempPath (h : UpdateHost) (exePath assetName : String) : String :=
  h.Join [tmpDir h exePath, assetName]

/-- Method `DownloadLatestAsset`: the effects and how the call ends.  The
`return nil` after `os.Exit(0)` is never reached. -/
def DownloadLatestAsset (h : UpdateHost) (um : UpdateManager)
    (assetName _currentVersion : String) : List UpdateEvent × UpdateResult :=
  match h.Executable with
  | .error err => ([], .returned (some (Sprintf "failed to get executable path: %v" [err])))
  | .ok exePath =>
    match h.MkdirAll (tmpDir h exePath) with
    | some err =>
      ([.mkdirAll (tmpDir h exePath)],
        .returned (some (Sprintf "failed to create temp directory: %v" [err])))
    | none =>
      let resolved := getAssetURL h um assetName
      match resolved.2 with
      | .error err => (.mkdirAll (tmpDir h exePath) :: resolved.1, .returned (some err))
      | .ok assetURL =>
        let downloaded := downloadFile h assetURL (tempPath h exePath assetName)
        match downloaded.2 with
        | some err =>
          (.mkdirAll (tmpDir h exePath) :: resolved.1 ++ downloaded.1, .returned (some err))
        | none =>
          let staged := createAndExecuteUpdateScript h exePath (tempPath h exePath assetName)
            (tmpDir h exePath)
          match staged.2 with
          | some err =>
            (.mkdirAll (tmpDir h exePath) :: resolved.1 ++ downloaded.1 ++ staged.1,
              .returned (some err))
          | none =>
            (.mkdirAll (tmpDir h exePath) :: resolved.1 ++ downloaded.1 ++ staged.1, .exited 0)

/-- Method `GetLatestVersion`. -/
def GetLatestVersion (h : UpdateHost) (um : UpdateManager) : Except String String :=
  let url := releaseURL um
  match h.Get url with
  | .error err => .error (Sprintf "failed to fetch release data: %v" [err])
  | .ok body =>
    match h.Decode body with
    | .error err => .error (Sprintf "failed to decode release data: %v" [err])
    | .ok release => .ok release.TagName

/-- Method `CheckVersion`. -/
def CheckVersion (h : UpdateHost) (um : UpdateManager) (currentVersion : String) : Bool :=
  match GetLatestVersion h um with
  | .error _ => true
  | .ok latestVersion => currentVersion != latestVersion

/-- A small concrete updater host used to exercise the model: the running
executable is `C:\App\cleaner.exe`, the feed decodes to `release`, and every
call succeeds. -/
def demoUpdateHost (release : Release) : UpdateHost where
  Executable := .ok "C:\\App\\cleaner.exe"
  Dir := fun _ => "C:\\App"
  Join := fun parts => "\\".intercalate parts
  MkdirAll := fun _ => none
  Get := fun _ => .ok "payload"
  Decode := fun _ => .ok release
  Create := fun _ => none
  CopyBuffer := fun _ _ => none
  WriteFile := fun _ _ => none
  Start := fun _ _ => none

/-- The demo updater host with faults injected: the given errors are returned
by `os.Create`, `io.CopyBuffer`, `os.WriteFile` and `Start`. -/
def demoFaultyHost (release : Release) (createErr copyErr writeErr startErr : Option String) :
    UpdateHost where
  Executable := .ok "C:\\App\\cleaner.exe"
  Dir := fun _ => "C:\\App"
  Join := fun parts => "\\".intercalate parts
  MkdirAll := fun _ => none
  Get := fun _ => .ok "payload"
  Decode := fun _ => .ok release
  Create := fun _ => createErr
  CopyBuffer := fun _ _ => copyErr
  WriteFile := fun _ _ => writeErr
  Start := fun _ _ => startErr

/-- A release with three assets whose names are close to one another. -/
def demoRelease : Release :=
  { TagName := "v1.0.0.7"
    Assets :=
      [ { Name := "APP.EXE", BrowserDownloadURL := "https://example.org/upper", TagName := "" },
        { Name := "app.exe.sig", BrowserDownloadURL := "https://example.org/sig", TagName := "" },
        { Name := "app.exe", BrowserDownloadURL := "https://example.org/app", TagName := "" },
        { Name := "app.exe", BrowserDownloadURL := "https://example.org/second", TagName := "" } ] }

/-! ### The helper script, in the words of the specification -/

/-- The commands the specification lists for the helper script. -/
inductive BatchCommand where
  /-- Wait briefly. -/
  | delay
  /-- Delete the file at `path`. -/
  | del (path : String)
  /-- Move the file at `source` to `target`. -/
  | move (source target : String)
  /-- Start the executable at `path`. -/
  | start (path : String)
  deriving DecidableEq, Repr

/-- One command as a line of batch text. -/
def BatchCommand.render : BatchCommand → String
  | .delay => "timeout /t 1 /nobreak >nul"
  | .del path => "del \"" ++ path ++ "\""
  | .move source target => "move \"" ++ source ++ "\" \"" ++ target ++ "\""
  | .start path => "start \"\" \"" ++ path ++ "\""

/-- A script: the echo-off header, then one line per command. -/
def renderScript (commands : List BatchCommand) : String :=
  "@echo off\n" ++ String.join (commands.map (fun c => c.render ++ "\n"))

/-- Steps 1 and 2 succeed: `os.Executable` returns `exePath` and the scratch
directory next to it is created. -/
def Located (h : UpdateHost) (exePath : String) : Prop :=
  h.Executable = .ok exePath ∧ h.MkdirAll (tmpDir h exePath) = none

/-- Steps 1 to 3 succeed: moreover the release feed is fetched and decoded, and
`asset` is the first asset of the release named `assetName`. -/
def Resolved (h : UpdateHost) (um : UpdateManager) (assetName exePath : String)
    (asset : ReleaseAsset) : Prop :=
  Located h exePath ∧
  ∃ body release, h.Get (releaseURL um) = .ok body ∧ h.Decode body = .ok release ∧
    release.Assets.find? (fun x => decide (x.Name = assetName)) = some asset

/-- Steps 1 to 4 succeed: moreover the asset is fetched from its download URL,
the file for it is created and the copy into the file succeeds. -/
def Downloaded (h : UpdateHost) (um : UpdateManager) (assetName exePath : String)
    (asset : ReleaseAsset) : Prop :=
  Resolved h um assetName exePath asset ∧
  ∃ payload, h.Get asset.BrowserDownloadURL = .ok payload ∧
    h.Create (tempPath h exePath assetName) = none ∧
    h.CopyBuffer (tempPath h exePath assetName) payload = none

/-- Every step of `DownloadLatestAsset` succeeds: the running executable is
located, the scratch directory created, the asset URL resolved, the asset
downloaded, the helper script written and launched.  Each step is given by the
results of the operating-system and network calls it makes. -/
def AllStepsSucceed (h : UpdateHost) (um : UpdateManager) (assetName : String) : Prop :=
  ∃ exePath asset,
    Downloaded h um assetName exePath asset ∧
    h.WriteFile (h.Join [tmpDir h exePath, "update.bat"])
      (scriptContent exePath (tempPath h exePath assetName)
        (h.Join [tmpDir h exePath, "update.bat"])) = none ∧
    h.Start "cmd" ["/C", h.Join [tmpDir h exePath, "update.bat"]] = none

/-- An effect of the last step: writing or launching the helper script. -/
def UpdateEvent.isScript : UpdateEvent → Bool
  | .writeFile _ _ => true
  | .start _ _ => true
  | _ => false

/-- The report line for one cache folder, in the words of the specification:
"removed", or "error" with the reason. -/
def outcomeLine (folder : String) : Option String → String
  | none => "✓ Removed " ++ folder
  | some reason => "❌ Error removing " ++ folder ++ ": " ++ reason

/-! ## Theorems -/

/-! ### Facts about the string functions -/

/-- With a non-empty separator, fuel beyond the length of the string changes nothing. -/
theorem genSplit_fuel (sep : List Char) (hsep : sep ≠ []) :
    ∀ (fuel : Nat) (s : List Char), s.length ≤ fuel →
      genSplit fuel s sep = genSplit s.length s sep := by
  have key : ∀ (n : Nat) (fuel : Nat) (s : List Char), s.length ≤ n → n ≤ fuel →
      genSplit fuel s sep = genSplit n s sep := by
    intro n
    induction n with
    | zero =>
      intro fuel s hs _
      have hnil : s = [] := List.length_eq_zero.mp (Nat.le_zero.mp hs)
      subst hnil
      cases fuel with
      | zero => rfl
      | succ k =>
        cases sep with
        | nil => exact absurd rfl hsep
        | cons a t => simp [genSplit, indexChars]
    | succ n ih =>
      intro fuel s hs hn
      cases fuel with
      | zero => omega
      | succ k =>
        simp only [genSplit]
        cases hidx : indexChars s sep with
        | none => rfl
        | some m =>
          simp only
          congr 1
          apply ih
          · have : 0 < sep.length := List.length_pos.mpr hsep
            cases s with
            | nil => simp
            | cons c r =>
              simp only [List.length_drop, List.length_cons] at hs ⊢
              omega
          · omega
  intro fuel s hs
  exact key s.length fuel s (Nat.le_refl _) hs

/-- The split loop never yields an empty list, so taking element `0` of
`strings.Split` with a non-empty separator cannot fail. -/
theorem genSplit_ne_nil (fuel : Nat) (s sep : List Char) : genSplit fuel s sep ≠ [] := by
  cases fuel with
  | zero => simp [genSplit]
  | succ k =>
    simp only [genSplit]
    split <;> simp

/-- The separator quote-space does not occur in a quote-free text followed by a
lone closing quote. -/
theorem indexChars_closing (p : List Char) (hq : '"' ∉ p) :
    indexChars (p ++ ['"']) ['"', ' '] = none := by
  induction p with
  | nil => simp [indexChars, List.isPrefixOf]
  | cons c r ih =>
    have hc : ¬ '"' = c := fun h => hq (h ▸ List.mem_cons_self _ _)
    have hr : '"' ∉ r := fun h => hq (List.mem_cons_of_mem _ h)
    simp [indexChars, List.isPrefixOf, hc, ih hr]

/-- In a quote-free text followed by quote-space, the separator quote-space
first occurs right after the text. -/
theorem indexChars_separator (p rest : List Char) (hq : '"' ∉ p) :
    indexChars (p ++ '"' :: ' ' :: rest) ['"', ' '] = some p.length := by
  induction p with
  | nil => simp [indexChars, List.isPrefixOf]
  | cons c r ih =>
    have hc : ¬ '"' = c := fun h => hq (h ▸ List.mem_cons_self _ _)
    have hr : '"' ∉ r := fun h => hq (List.mem_cons_of_mem _ h)
    simp [indexChars, List.isPrefixOf, hc, ih hr]

/-- Trimming quotes from an opening quote followed by a quote-free text, with or
without a closing quote, leaves the text. -/
theorem trimChars_quoted (p : List Char) (hq : '"' ∉ p) :
    trimChars ('"' :: p) ['"'] = p ∧ trimChars ('"' :: p ++ ['"']) ['"'] = p := by
  have hP : ∀ x ∈ p, ¬ ((['"'] : List Char).contains x = true) := by
    intro x hx h
    have : x = '"' := by simpa using h
    exact hq (this ▸ hx)
  have hdrop : p.dropWhile (fun c => (['"'] : List Char).contains c) = p := by
    cases p with
    | nil => rfl
    | cons a t =>
      have ha : (['"'] : List Char).contains a = false := by
        simpa using hP a (by simp)
      rw [List.dropWhile_cons, ha]
      rfl
  have hrdrop : ('"' :: p).rdropWhile (fun c => (['"'] : List Char).contains c)
      = if p = [] then [] else '"' :: p := by
    by_cases hp : p = []
    · subst hp
      simp [List.rdropWhile]
    · rw [if_neg hp]
      rw [List.rdropWhile_eq_self_iff]
      intro hne
      rw [List.getLast_cons hp]
      exact hP _ (List.getLast_mem hp)
  have h1 : trimChars ('"' :: p) ['"'] = p := by
    unfold trimChars
    rw [hrdrop]
    by_cases hp : p = []
    · subst hp
      simp
    · have hq1 : (['"'] : List Char).contains '"' = true := by simp
      rw [if_neg hp, List.dropWhile_cons, hq1]
      exact hdrop
  refine ⟨h1, ?_⟩
  have h2 : ('"' :: p ++ ['"']).rdropWhile (fun c => (['"'] : List Char).contains c)
      = ('"' :: p).rdropWhile (fun c => (['"'] : List Char).contains c) := by
    rw [List.rdropWhile_concat_pos]
    simp
  unfold trimChars at h1 ⊢
  rw [h2]
  exact h1

/-- Stripping a suffix that was just appended gives back the original. -/
theorem TrimSuffix_append (r suffix : String) : TrimSuffix (r ++ suffix) suffix = r := by
  apply String.ext
  simp [TrimSuffix, trimSuffixChars, hasSuffixChars]

/-- Characters of the executable path parsed from a registry command line. -/
theorem parseExec_data (value : String) :
    (parseExec value).data
      = trimChars ((genSplit value.data.length value.data ['"', ' ']).headD []) ['"'] := by
  have hsep : ("\" " : String).data = ['"', ' '] := rfl
  have hcut : ("\"" : String).data = ['"'] := rfl
  simp only [parseExec, Trim, Split, splitChars, hsep, hcut]
  have hmap : ∀ l : List (List Char), ((l.map String.mk).headD "").data = l.headD [] := by
    intro l
    cases l <;> rfl
  simp [hmap]

/-- Parsing a quoted path followed by a space and arguments: the path must be
quote-free and must not begin with a space. -/
theorem parseExec_with_args (p args : String) (hq : '"' ∉ p.data)
    (hs : p.data.head? ≠ some ' ') :
    parseExec ("\"" ++ p ++ "\" " ++ args) = p := by
  apply String.ext
  rw [parseExec_data]
  have hval : ("\"" ++ p ++ "\" " ++ args).data = '"' :: (p.data ++ '"' :: ' ' :: args.data) := by
    have hsep : ("\" " : String).data = ['"', ' '] := rfl
    have hcut : ("\"" : String).data = ['"'] := rfl
    simp [String.data_append, hsep, hcut]
  rw [hval]
  have hfirst : (['"', ' '] : List Char).isPrefixOf ('"' :: (p.data ++ '"' :: ' ' :: args.data))
      = false := by
    cases hp : p.data with
    | nil => simp [List.isPrefixOf]
    | cons a t =>
      have : a ≠ ' ' := fun h => hs (by simp [hp, h])
      simpa [List.isPrefixOf] using fun h => this h.symm
  have hidx : indexChars ('"' :: (p.data ++ '"' :: ' ' :: args.data)) ['"', ' ']
      = some (p.data.length + 1) := by
    simp [indexChars, hfirst, indexChars_separator p.data args.data hq]
  simp only [List.length_cons, genSplit, hidx, List.headD_cons, List.take_succ_cons]
  rw [List.take_left']
  · exact (trimChars_quoted p.data hq).1
  · rfl

/-- Parsing a quoted path with nothing after the closing quote. -/
theorem parseExec_without_args (p : String) (hq : '"' ∉ p.data)
    (hs : p.data.head? ≠ some ' ') :
    parseExec ("\"" ++ p ++ "\"") = p := by
  apply String.ext
  rw [parseExec_data]
  have hval : ("\"" ++ p ++ "\"").data = '"' :: (p.data ++ ['"']) := by
    have hcut : ("\"" : String).data = ['"'] := rfl
    simp [String.data_append, hcut]
  rw [hval]
  have hfirst : (['"', ' '] : List Char).isPrefixOf ('"' :: (p.data ++ ['"'])) = false := by
    cases hp : p.data with
    | nil => simp [List.isPrefixOf]
    | cons a t =>
      have : a ≠ ' ' := fun h => hs (by simp [hp, h])
      simpa [List.isPrefixOf] using fun h => this h.symm
  have hidx : indexChars ('"' :: (p.data ++ ['"'])) ['"', ' '] = none := by
    simp [indexChars, hfirst, indexChars_closing p.data hq]
  simp only [List.length_cons, genSplit, hidx, List.headD_cons]
  exact (trimChars_quoted p.data hq).2

/-! ### Facts about the cleaner -/

/-- The two log lines of the inner loop are the report lines of the specification. -/
theorem sprintf_outcome (folder : String) (err : Option String) :
    (match err with
      | some e => Sprintf "❌ Error removing %s: %v" [folder, e]
      | none => Sprintf "✓ Removed %s" [folder]) = outcomeLine folder err := by
  cases err with
  | none =>
    apply String.ext
    simp [Sprintf, sprintfChars, outcomeLine, String.data_append]
  | some e =>
    apply String.ext
    simp [Sprintf, sprintfChars, outcomeLine, String.data_append]

/-- One iteration of the inner loop, with the log line in specification form. -/
theorem removeFolders_cons (host : Host FS) (dataPath folder : String) (rest : List String)
    (f : FiveMCacheCleaner FS) :
    removeFolders host dataPath (folder :: rest) f
      = removeFolders host dataPath rest
          { f with
            fs := (host.RemoveAll f.fs (host.Join [dataPath, folder])).1
            trace := f.trace ++
              [Event.removeAll (host.Join [dataPath, folder])
                  (host.RemoveAll f.fs (host.Join [dataPath, folder])).2,
               Event.log (outcomeLine folder
                  (host.RemoveAll f.fs (host.Join [dataPath, folder])).2)] } := by
  rw [← sprintf_outcome]
  simp only [removeFolders]
  cases (host.RemoveAll f.fs (host.Join [dataPath, folder])).2 <;>
    simp [FiveMCacheCleaner.log, FiveMCacheCleaner.emit]

/-- The removal record of a concatenated trace. -/
theorem removals_append (t u : List Event) :
    removals (t ++ u) = removals t ++ removals u := by
  induction t with
  | nil => rfl
  | cons a t ih => cases a <;> simp [removals, ih]

/-- The relaunch prompt touches neither the file system nor the removal record. -/
theorem cleanCacheFolders_state (host : Host FS) (f : FiveMCacheCleaner FS) :
    (cleanCacheFolders host f).state.fs = (cleaningPass host f).fs ∧
    removals (cleanCacheFolders host f).state.trace = removals (cleaningPass host f).trace := by
  unfold cleanCacheFolders
  simp only [FiveMCacheCleaner.emit]
  split_ifs
  · split <;> simp [Outcome.state, removals_append, removals]
  · simp [Outcome.state, removals_append, removals]

/-- The error returned by the locator depends only on the host and the file system. -/
theorem detectFiveMPath_congr (host : Host FS) (f g : FiveMCacheCleaner FS) (hfs : g.fs = f.fs) :
    (detectFiveMPath host g).2 = (detectFiveMPath host f).2 := by
  unfold detectFiveMPath
  simp only [FiveMCacheCleaner.log, FiveMCacheCleaner.emit, hfs]
  cases host.OpenKey registryPath with
  | some e => rfl
  | none =>
    cases host.GetStringValue registryPath "" with
    | error e => rfl
    | ok value =>
      simp only
      split_ifs <;> rfl

/-- The inner loop only appends to the trace. -/
theorem removeFolders_trace (host : Host FS) (dataPath : String) (folders : List String) :
    ∀ f : FiveMCacheCleaner FS, f.trace <+: (removeFolders host dataPath folders f).trace := by
  induction folders with
  | nil => intro f; exact List.prefix_refl _
  | cons folder rest ih =>
    intro f
    rw [removeFolders_cons]
    refine List.IsPrefix.trans ?_ (ih _)
    exact List.prefix_append _ _

/-- The outer loop only appends to the trace. -/
theorem cleanPaths_trace (host : Host FS) (paths : List String) :
    ∀ f : FiveMCacheCleaner FS, f.trace <+: (cleanPaths host paths f).trace := by
  induction paths with
  | nil => intro f; exact List.prefix_refl _
  | cons path rest ih =>
    intro f
    simp only [cleanPaths]
    refine (List.IsPrefix.trans ?_ (removeFolders_trace host _ _ _)).trans (ih _)
    exact List.prefix_append _ _

/-- The method `cleanCacheFolders` only appends to the trace. -/
theorem cleanCacheFolders_trace (host : Host FS) (f : FiveMCacheCleaner FS) :
    f.trace <+: (cleanCacheFolders host f).state.trace := by
  have hpass : f.trace <+: (cleaningPass host f).trace :=
    (cleanPaths_trace host f.paths f).trans (List.prefix_append _ _)
  unfold cleanCacheFolders
  simp only [FiveMCacheCleaner.emit]
  split_ifs
  · split
    · exact hpass.trans ((List.prefix_append _ _).trans (List.prefix_append _ _))
    · exact hpass.trans ((List.prefix_append _ _).trans (List.prefix_append _ _))
  · exact hpass.trans (List.prefix_append _ _)

/-- The method `cleanCacheFolders` never returns: the process exits or panics. -/
theorem cleanCacheFolders_never_returns (host : Host FS) (f g : FiveMCacheCleaner FS) :
    cleanCacheFolders host f ≠ .returned g := by
  unfold cleanCacheFolders
  simp only
  split_ifs
  · split <;> simp
  · simp

/-- The locator only appends to the trace. -/
theorem detectFiveMPath_trace (host : Host FS) (f : FiveMCacheCleaner FS) :
    f.trace <+: (detectFiveMPath host f).1.trace := by
  unfold detectFiveMPath
  simp only [FiveMCacheCleaner.log, FiveMCacheCleaner.emit]
  cases host.OpenKey registryPath with
  | some e => exact List.prefix_append _ _
  | none =>
    cases host.GetStringValue registryPath "" with
    | error e => exact List.prefix_append _ _
    | ok value =>
      simp only
      split_ifs
      · exact (List.prefix_append _ _).trans (List.prefix_append _ _)
      · exact List.prefix_append _ _

/-- The body of `cleanCache` only appends to the trace. -/
theorem cleanCacheBody_trace (host : Host FS) (f : FiveMCacheCleaner FS) :
    f.trace <+: (cleanCacheBody host f).state.trace := by
  have h0 : f.trace <+: ((f.updateButtonState false "Cleaning...").clearLog).trace := by
    simp only [FiveMCacheCleaner.updateButtonState, FiveMCacheCleaner.clearLog,
      FiveMCacheCleaner.emit]
    exact (List.prefix_append _ _).trans (List.prefix_append _ _)
  have h1 := detectFiveMPath_trace host ((f.updateButtonState false "Cleaning...").clearLog)
  unfold cleanCacheBody
  simp only
  rcases hd : detectFiveMPath host ((f.updateButtonState false "Cleaning...").clearLog)
    with ⟨g, e⟩
  rw [hd] at h1
  cases e with
  | some err =>
    simp only [Outcome.state, FiveMCacheCleaner.log, FiveMCacheCleaner.updateButtonState,
      FiveMCacheCleaner.emit]
    exact (h0.trans h1).trans ((List.prefix_append _ _).trans (List.prefix_append _ _))
  | none =>
    simp only
    have h2 := cleanCacheFolders_trace host g
    cases hc : cleanCacheFolders host g with
    | returned g2 => exact absurd hc (cleanCacheFolders_never_returns host g g2)
    | exited c g2 =>
      rw [hc] at h2
      exact (h0.trans h1).trans h2
    | panicked m g2 =>
      rw [hc] at h2
      exact (h0.trans h1).trans h2

/-! ### Installation locator -/

/-- C2 as stated fails: the path ` x` holds no double quote, yet parsing the
registry value `" x" y` yields the empty string, because the opening quote and
the leading space of the path already form the delimiter quote-space. -/
theorem parseExec_leading_space :
    '"' ∉ (" x" : String).data ∧ parseExec ("\"" ++ " x" ++ "\" " ++ "y") ≠ " x" := by
  decide

/-- C2, amended: for every executable path `p` that holds no double quote and
does not begin with a space, and every argument string `args`, the registry
value `"p" args`, and likewise `"p"` with nothing after it, parses to exactly
`p`, and `detectFiveMPath` stores `p` as the relaunch target `FivemExec`; the
result does not depend on `args`. -/
theorem detectFiveMPath_relaunch_target (host : Host FS) (f : FiveMCacheCleaner FS)
    (p args value : String) (hq : '"' ∉ p.data) (hs : p.data.head? ≠ some ' ')
    (hform : value = "\"" ++ p ++ "\" " ++ args ∨ value = "\"" ++ p ++ "\"")
    (hopen : host.OpenKey registryPath = none)
    (hread : host.GetStringValue registryPath "" = .ok value) :
    parseExec value = p ∧ (detectFiveMPath host f).1.FivemExec = p := by
  have hp : parseExec value = p := by
    rcases hform with h | h
    · rw [h]
      exact parseExec_with_args p args hq hs
    · rw [h]
      exact parseExec_without_args p hq hs
  refine ⟨hp, ?_⟩
  unfold detectFiveMPath
  simp only [hopen, hread, hp]
  split_ifs <;> rfl

/-- Witness for `detectFiveMPath_relaunch_target`: a typical handler command. -/
theorem detectFiveMPath_relaunch_target_witness :
    parseExec "\"C:\\Games\\FiveM.exe\" \"%1\"" = "C:\\Games\\FiveM.exe" ∧
    (detectFiveMPath (demoHost "\"C:\\Games\\FiveM.exe\" \"%1\"" 6) (demoCleaner [])).1.FivemExec
      = "C:\\Games\\FiveM.exe" :=
  detectFiveMPath_relaunch_target (demoHost "\"C:\\Games\\FiveM.exe\" \"%1\"" 6) (demoCleaner [])
    "C:\\Games\\FiveM.exe" "\"%1\"" "\"C:\\Games\\FiveM.exe\" \"%1\""
    (by decide) (by decide) (Or.inl (by decide)) rfl rfl

/-- C3: when the registry value parses to `r` followed by `FiveM.exe` and the
marker `data` exists beneath `r` joined with `FiveM.app`, `detectFiveMPath`
returns no error and the discovered paths are exactly that one bundle
directory, whatever the list held before.  (`filepath.Join` is a parameter; its
result here is assumed non-empty, as it is for every non-empty last element.) -/
theorem detectFiveMPath_found (host : Host FS) (f : FiveMCacheCleaner FS) (r value : String)
    (info : FileInfo)
    (hopen : host.OpenKey registryPath = none)
    (hread : host.GetStringValue registryPath "" = .ok value)
    (hparse : parseExec value = r ++ "FiveM.exe")
    (hjoin : host.Join [r, "FiveM.app"] ≠ "")
    (hmarker : host.Stat f.fs (host.Join [host.Join [r, "FiveM.app"], "data"]) = .ok info) :
    (detectFiveMPath host f).2 = none ∧
    (detectFiveMPath host f).1.paths = [host.Join [r, "FiveM.app"]] := by
  unfold detectFiveMPath
  simp only [hopen, hread, hparse, TrimSuffix_append, isFiveMInstallation, hjoin,
    FiveMCacheCleaner.log, FiveMCacheCleaner.emit, hmarker]
  simp

/-- Witness for `detectFiveMPath_found`: an installation in `C:\Games`, with a
stale entry in the list beforehand. -/
theorem detectFiveMPath_found_witness :
    (demoCleaner [("C:\\Games\\FiveM.app\\data", true)]).paths = ["stale"] ∧
    (detectFiveMPath (demoHost "\"C:\\Games\\FiveM.exe\" %1" 6)
        (demoCleaner [("C:\\Games\\FiveM.app\\data", true)])).2 = none ∧
    (detectFiveMPath (demoHost "\"C:\\Games\\FiveM.exe\" %1" 6)
        (demoCleaner [("C:\\Games\\FiveM.app\\data", true)])).1.paths
      = ["C:\\Games\\FiveM.app"] :=
  ⟨rfl, detectFiveMPath_found (demoHost "\"C:\\Games\\FiveM.exe\" %1" 6)
    (demoCleaner [("C:\\Games\\FiveM.app\\data", true)]) "C:\\Games\\"
    "\"C:\\Games\\FiveM.exe\" %1" { IsDir := true }
    rfl rfl (by decide) (by decide) rfl⟩

/-- C4 as stated fails: the registry value is read successfully and beneath the
install path `C:\Games\FiveM.app` derived from it there is no `data`
subdirectory, only a regular file of that name.  `os.Stat` succeeds on the
file and the code does not ask whether the entry is a directory, so
`detectFiveMPath` returns no error and registers the path, and `cleanCache`
goes on to call `os.RemoveAll` three times. -/
theorem detectFiveMPath_regular_file :
    isDirectory (demoHost "\"C:\\Games\\FiveM.exe\" %1" 7)
        [("C:\\Games\\FiveM.app", true), ("C:\\Games\\FiveM.app\\data", false)]
        ((demoHost "\"C:\\Games\\FiveM.exe\" %1" 7).Join
          [(demoHost "\"C:\\Games\\FiveM.exe\" %1" 7).Join
            [TrimSuffix (parseExec "\"C:\\Games\\FiveM.exe\" %1") "FiveM.exe", "FiveM.app"],
           "data"]) = false ∧
    (detectFiveMPath (demoHost "\"C:\\Games\\FiveM.exe\" %1" 7)
        (demoCleaner [("C:\\Games\\FiveM.app", true), ("C:\\Games\\FiveM.app\\data", false)])).2
      = none ∧
    (detectFiveMPath (demoHost "\"C:\\Games\\FiveM.exe\" %1" 7)
        (demoCleaner [("C:\\Games\\FiveM.app", true),
          ("C:\\Games\\FiveM.app\\data", false)])).1.paths
      = ["C:\\Games\\FiveM.app"] ∧
    removals (cleanCache (demoHost "\"C:\\Games\\FiveM.exe\" %1" 7)
        (demoCleaner [("C:\\Games\\FiveM.app", true),
          ("C:\\Games\\FiveM.app\\data", false)])).state.trace
      = ["C:\\Games\\FiveM.app\\data\\cache", "C:\\Games\\FiveM.app\\data\\server-cache",
         "C:\\Games\\FiveM.app\\data\\server-cache-priv"] := by
  decide

/-- C4, amended: when the registry value is read successfully and nothing at
all exists at `data` beneath the install path derived from it (`os.Stat`
returns an error there; an entry of any kind, directory or not, counts as the
marker), `detectFiveMPath` fails with "no valid FiveM installation found", the
discovered paths are empty afterwards, and `cleanCache` calls `os.RemoveAll`
not once and leaves the file system as it was. -/
theorem detectFiveMPath_not_found (host : Host FS) (f : FiveMCacheCleaner FS)
    (value e : String)
    (hopen : host.OpenKey registryPath = none)
    (hread : host.GetStringValue registryPath "" = .ok value)
    (hmarker : host.Stat f.fs
      (host.Join [host.Join [TrimSuffix (parseExec value) "FiveM.exe", "FiveM.app"], "data"])
        = .error e) :
    (detectFiveMPath host f).2 = some "no valid FiveM installation found" ∧
    (detectFiveMPath host f).1.paths = [] ∧
    removals (cleanCache host f).state.trace = removals f.trace ∧
    (cleanCache host f).state.fs = f.fs := by
  have hinst : ∀ g : FiveMCacheCleaner FS, g.fs = f.fs →
      isFiveMInstallation host g.fs
        (host.Join [TrimSuffix (parseExec value) "FiveM.exe", "FiveM.app"]) = false := by
    intro g hg
    unfold isFiveMInstallation
    split_ifs
    · rfl
    · rw [hg, hmarker]
  have hdet : ∀ g : FiveMCacheCleaner FS, g.fs = f.fs →
      detectFiveMPath host g =
        ({ g with paths := [], FivemExec := parseExec value,
                  trace := g.trace ++ [Event.log "Looking for FiveM installation..."] },
          some "no valid FiveM installation found") := by
    intro g hg
    have hmsg : Sprintf "no valid FiveM installation found" []
        = "no valid FiveM installation found" := by decide
    unfold detectFiveMPath
    simp only [hopen, hread, FiveMCacheCleaner.log, FiveMCacheCleaner.emit, hinst g hg, hmsg]
    simp
  refine ⟨by rw [hdet f rfl], by rw [hdet f rfl], ?_, ?_⟩
  · unfold cleanCache
    split_ifs with hrun
    · rfl
    · simp only [cleanCacheBody]
      rw [hdet (((f.setRunning true).updateButtonState false "Cleaning...").clearLog) rfl]
      simp [Outcome.state, FiveMCacheCleaner.setRunning, FiveMCacheCleaner.log,
        FiveMCacheCleaner.emit, FiveMCacheCleaner.updateButtonState,
        FiveMCacheCleaner.clearLog, removals_append, removals]
  · unfold cleanCache
    split_ifs with hrun
    · rfl
    · simp only [cleanCacheBody]
      rw [hdet (((f.setRunning true).updateButtonState false "Cleaning...").clearLog) rfl]
      simp [Outcome.state, FiveMCacheCleaner.setRunning, FiveMCacheCleaner.log,
        FiveMCacheCleaner.emit, FiveMCacheCleaner.updateButtonState,
        FiveMCacheCleaner.clearLog]

/-- Witness for `detectFiveMPath_not_found`: the handler points to `C:\Games`,
where `FiveM.app` holds no `data` entry (cache files elsewhere are left alone). -/
theorem detectFiveMPath_not_found_witness :
    (detectFiveMPath (demoHost "\"C:\\Games\\FiveM.exe\" %1" 6)
        (demoCleaner [("C:\\Games\\FiveM.app", true),
          ("D:\\Old\\FiveM.app\\data\\cache", true)])).2
      = some "no valid FiveM installation found" ∧
    (detectFiveMPath (demoHost "\"C:\\Games\\FiveM.exe\" %1" 6)
        (demoCleaner [("C:\\Games\\FiveM.app", true),
          ("D:\\Old\\FiveM.app\\data\\cache", true)])).1.paths = [] ∧
    removals (cleanCache (demoHost "\"C:\\Games\\FiveM.exe\" %1" 6)
        (demoCleaner [("C:\\Games\\FiveM.app", true),
          ("D:\\Old\\FiveM.app\\data\\cache", true)])).state.trace
      = removals (demoCleaner [("C:\\Games\\FiveM.app", true),
          ("D:\\Old\\FiveM.app\\data\\cache", true)]).trace ∧
    (cleanCache (demoHost "\"C:\\Games\\FiveM.exe\" %1" 6)
        (demoCleaner [("C:\\Games\\FiveM.app", true),
          ("D:\\Old\\FiveM.app\\data\\cache", true)])).state.fs
      = (demoCleaner [("C:\\Games\\FiveM.app", true),
          ("D:\\Old\\FiveM.app\\data\\cache", true)]).fs :=
  detectFiveMPath_not_found (demoHost "\"C:\\Games\\FiveM.exe\" %1" 6)
    (demoCleaner [("C:\\Games\\FiveM.app", true), ("D:\\Old\\FiveM.app\\data\\cache", true)])
    "\"C:\\Games\\FiveM.exe\" %1" "The system cannot find the file specified."
    rfl rfl rfl

/-! ### Cache cleaner -/

/-- The cleaning pass on a single install path, spelled out: the file system
after the three removals in order, and the trace it appends. -/
theorem cleaningPass_single (host : Host FS) (f : FiveMCacheCleaner FS) (path : String)
    (hpaths : f.paths = [path]) :
    let d := host.Join [path, "data"]
    let r1 := host.RemoveAll f.fs (host.Join [d, "cache"])
    let r2 := host.RemoveAll r1.1 (host.Join [d, "server-cache"])
    let r3 := host.RemoveAll r2.1 (host.Join [d, "server-cache-priv"])
    (cleaningPass host f).fs = r3.1 ∧
    (cleaningPass host f).trace = f.trace ++
      [Event.log "\nCleaning cache folders:",
       Event.removeAll (host.Join [d, "cache"]) r1.2,
       Event.log (outcomeLine "cache" r1.2),
       Event.removeAll (host.Join [d, "server-cache"]) r2.2,
       Event.log (outcomeLine "server-cache" r2.2),
       Event.removeAll (host.Join [d, "server-cache-priv"]) r3.2,
       Event.log (outcomeLine "server-cache-priv" r3.2),
       Event.log "\n✨ Cache cleaning completed successfully!"] := by
  intro d r1 r2 r3
  unfold cleaningPass
  rw [hpaths]
  simp only [cleanPaths, cacheFolders]
  rw [removeFolders_cons, removeFolders_cons, removeFolders_cons]
  simp [removeFolders, FiveMCacheCleaner.log, FiveMCacheCleaner.emit, d, r1, r2, r3]

/-- C6: on a validated install path, whatever each `os.RemoveAll` returns, the
cleaning pass calls `os.RemoveAll` on exactly `path/data/cache`,
`path/data/server-cache`, `path/data/server-cache-priv`, in this order, each
call followed by one report line for that folder (removed, or error with the
reason); a failure does not stop the later calls; and the completion message is
logged last.  The relaunch prompt that follows removes nothing more. -/
theorem cleaningPass_partial_failure (host : Host FS) (f : FiveMCacheCleaner FS)
    (path : String) (hpaths : f.paths = [path]) :
    let d := host.Join [path, "data"]
    let r1 := host.RemoveAll f.fs (host.Join [d, "cache"])
    let r2 := host.RemoveAll r1.1 (host.Join [d, "server-cache"])
    let r3 := host.RemoveAll r2.1 (host.Join [d, "server-cache-priv"])
    (cleaningPass host f).trace = f.trace ++
      [Event.log "\nCleaning cache folders:",
       Event.removeAll (host.Join [d, "cache"]) r1.2,
       Event.log (outcomeLine "cache" r1.2),
       Event.removeAll (host.Join [d, "server-cache"]) r2.2,
       Event.log (outcomeLine "server-cache" r2.2),
       Event.removeAll (host.Join [d, "server-cache-priv"]) r3.2,
       Event.log (outcomeLine "server-cache-priv" r3.2),
       Event.log "\n✨ Cache cleaning completed successfully!"] ∧
    (cleaningPass host f).fs = r3.1 ∧
    removals (cleanCacheFolders host f).state.trace = removals f.trace ++
      [host.Join [d, "cache"], host.Join [d, "server-cache"],
       host.Join [d, "server-cache-priv"]] := by
  intro d r1 r2 r3
  have h := cleaningPass_single host f path hpaths
  refine ⟨h.2, h.1, ?_⟩
  rw [(cleanCacheFolders_state host f).2, h.2, removals_append]
  rfl

/-- Witness for `cleaningPass_partial_failure`: the three cache folders exist
and `server-cache` cannot be removed; the other two are removed all the same. -/
theorem cleaningPass_partial_failure_witness :
    (cleaningPass (demoLockedHost "C:\\G\\data\\server-cache")
      { demoCleaner [("C:\\G\\data", true), ("C:\\G\\data\\cache", true),
          ("C:\\G\\data\\server-cache", true), ("C:\\G\\data\\server-cache-priv", true)] with
        paths := ["C:\\G"] }).trace
      = [Event.log "\nCleaning cache folders:",
         Event.removeAll "C:\\G\\data\\cache" none,
         Event.log "✓ Removed cache",
         Event.removeAll "C:\\G\\data\\server-cache" (some "Access is denied."),
         Event.log "❌ Error removing server-cache: Access is denied.",
         Event.removeAll "C:\\G\\data\\server-cache-priv" none,
         Event.log "✓ Removed server-cache-priv",
         Event.log "\n✨ Cache cleaning completed successfully!"] ∧
    (cleaningPass (demoLockedHost "C:\\G\\data\\server-cache")
      { demoCleaner [("C:\\G\\data", true), ("C:\\G\\data\\cache", true),
          ("C:\\G\\data\\server-cache", true), ("C:\\G\\data\\server-cache-priv", true)] with
        paths := ["C:\\G"] }).fs
      = [("C:\\G\\data", true), ("C:\\G\\data\\server-cache", true)] :=
  ⟨(cleaningPass_partial_failure (demoLockedHost "C:\\G\\data\\server-cache")
      { demoCleaner [("C:\\G\\data", true), ("C:\\G\\data\\cache", true),
          ("C:\\G\\data\\server-cache", true), ("C:\\G\\data\\server-cache-priv", true)] with
        paths := ["C:\\G"] } "C:\\G" rfl).1.trans (by decide),
   (cleaningPass_partial_failure (demoLockedHost "C:\\G\\data\\server-cache")
      { demoCleaner [("C:\\G\\data", true), ("C:\\G\\data\\cache", true),
          ("C:\\G\\data\\server-cache", true), ("C:\\G\\data\\server-cache-priv", true)] with
        paths := ["C:\\G"] } "C:\\G" rfl).2.1.trans (by decide)⟩

/-- C5 as stated fails: the install path `C:\G` is validated and none of the
three cache directories exists, but at `C:\G\data\cache` there is a regular
file.  The code makes no check of its own before `os.RemoveAll`, which deletes
the file: the cleaning pass does not leave the file system unchanged. -/
theorem cleaningPass_regular_file :
    isFiveMInstallation (demoHost "" 7)
        [("C:\\G\\data", true), ("C:\\G\\data\\cache", false)] "C:\\G" = true ∧
    (∀ folder ∈ cacheFolders,
      isDirectory (demoHost "" 7) [("C:\\G\\data", true), ("C:\\G\\data\\cache", false)]
        ((demoHost "" 7).Join [(demoHost "" 7).Join ["C:\\G", "data"], folder]) = false) ∧
    (cleaningPass (demoHost "" 7)
      { demoCleaner [("C:\\G\\data", true), ("C:\\G\\data\\cache", false)] with
        paths := ["C:\\G"] }).fs = [("C:\\G\\data", true)] ∧
    (cleaningPass (demoHost "" 7)
      { demoCleaner [("C:\\G\\data", true), ("C:\\G\\data\\cache", false)] with
        paths := ["C:\\G"] }).fs
      ≠ [("C:\\G\\data", true), ("C:\\G\\data\\cache", false)] := by
  decide

/-- C5, amended: on a validated install path, whenever each of the three calls
`os.RemoveAll(path/data/cache)`, `os.RemoveAll(path/data/server-cache)`,
`os.RemoveAll(path/data/server-cache-priv)` returns `nil` and leaves the file
system as it was (what `os.RemoveAll` documents for a path at which nothing
exists), the cleaning pass leaves the file system unchanged and logs "Removed"
for each of the three folders, with no error line; so does the whole of
`cleanCacheFolders`.  The code makes no existence check of its own: that a
missing directory is not an error is inherited from `os.RemoveAll`. -/
theorem cleaningPass_absent (host : Host FS) (f : FiveMCacheCleaner FS) (path : String)
    (hpaths : f.paths = [path])
    (hnoop : ∀ folder ∈ cacheFolders,
      host.RemoveAll f.fs (host.Join [host.Join [path, "data"], folder]) = (f.fs, none)) :
    (cleaningPass host f).fs = f.fs ∧
    (cleanCacheFolders host f).state.fs = f.fs ∧
    (cleaningPass host f).trace = f.trace ++
      [Event.log "\nCleaning cache folders:",
       Event.removeAll (host.Join [host.Join [path, "data"], "cache"]) none,
       Event.log "✓ Removed cache",
       Event.removeAll (host.Join [host.Join [path, "data"], "server-cache"]) none,
       Event.log "✓ Removed server-cache",
       Event.removeAll (host.Join [host.Join [path, "data"], "server-cache-priv"]) none,
       Event.log "✓ Removed server-cache-priv",
       Event.log "\n✨ Cache cleaning completed successfully!"] := by
  have h1 := hnoop "cache" (by simp [cacheFolders])
  have h2 := hnoop "server-cache" (by simp [cacheFolders])
  have h3 := hnoop "server-cache-priv" (by simp [cacheFolders])
  have h := cleaningPass_single host f path hpaths
  simp only [h1, h2, h3] at h
  have e1 : outcomeLine "cache" none = "✓ Removed cache" := by decide
  have e2 : outcomeLine "server-cache" none = "✓ Removed server-cache" := by decide
  have e3 : outcomeLine "server-cache-priv" none = "✓ Removed server-cache-priv" := by decide
  rw [e1, e2, e3] at h
  exact ⟨h.1, by rw [(cleanCacheFolders_state host f).1, h.1], h.2⟩

/-- Witness for `cleaningPass_absent`: a validated installation at which
nothing exists at any of the three cache paths. -/
theorem cleaningPass_absent_witness :
    (cleaningPass (demoHost "" 6)
      { demoCleaner [("C:\\G\\data", true), ("C:\\G\\data\\keep.txt", false)] with
        paths := ["C:\\G"] }).fs
      = [("C:\\G\\data", true), ("C:\\G\\data\\keep.txt", false)] ∧
    (cleaningPass (demoHost "" 6)
      { demoCleaner [("C:\\G\\data", true), ("C:\\G\\data\\keep.txt", false)] with
        paths := ["C:\\G"] }).trace
      = [Event.log "\nCleaning cache folders:",
         Event.removeAll "C:\\G\\data\\cache" none,
         Event.log "✓ Removed cache",
         Event.removeAll "C:\\G\\data\\server-cache" none,
         Event.log "✓ Removed server-cache",
         Event.removeAll "C:\\G\\data\\server-cache-priv" none,
         Event.log "✓ Removed server-cache-priv",
         Event.log "\n✨ Cache cleaning completed successfully!"] :=
  ⟨(cleaningPass_absent (demoHost "" 6)
      { demoCleaner [("C:\\G\\data", true), ("C:\\G\\data\\keep.txt", false)] with
        paths := ["C:\\G"] } "C:\\G" rfl (by decide)).1,
   (cleaningPass_absent (demoHost "" 6)
      { demoCleaner [("C:\\G\\data", true), ("C:\\G\\data\\keep.txt", false)] with
        paths := ["C:\\G"] } "C:\\G" rfl (by decide)).2.2.trans (by decide)⟩

/-! ### Re-entrancy guard -/

/-- The inner loop never writes the flag `isRunning`. -/
theorem removeFolders_isRunning (host : Host FS) (dataPath : String) (folders : List String) :
    ∀ f : FiveMCacheCleaner FS, (removeFolders host dataPath folders f).isRunning = f.isRunning := by
  induction folders with
  | nil => intro f; rfl
  | cons folder rest ih =>
    intro f
    rw [removeFolders_cons, ih]

/-- The outer loop never writes the flag `isRunning`. -/
theorem cleanPaths_isRunning (host : Host FS) (paths : List String) :
    ∀ f : FiveMCacheCleaner FS, (cleanPaths host paths f).isRunning = f.isRunning := by
  induction paths with
  | nil => intro f; rfl
  | cons path rest ih =>
    intro f
    simp only [cleanPaths]
    rw [ih, removeFolders_isRunning]
    rfl

/-- The cleaning pass never writes the flag `isRunning`. -/
theorem cleaningPass_isRunning (host : Host FS) (f : FiveMCacheCleaner FS) :
    (cleaningPass host f).isRunning = f.isRunning := by
  unfold cleaningPass
  simp only [FiveMCacheCleaner.log, FiveMCacheCleaner.emit]
  exact cleanPaths_isRunning host f.paths f

/-- The method `cleanCacheFolders` never writes the flag `isRunning`. -/
theorem cleanCacheFolders_isRunning (host : Host FS) (f : FiveMCacheCleaner FS) :
    (cleanCacheFolders host f).state.isRunning = f.isRunning := by
  have hpass := cleaningPass_isRunning host f
  unfold cleanCacheFolders
  simp only [FiveMCacheCleaner.emit]
  split_ifs
  · split <;> exact hpass
  · exact hpass

/-- The locator never writes the flag `isRunning`. -/
theorem detectFiveMPath_isRunning (host : Host FS) (f : FiveMCacheCleaner FS) :
    (detectFiveMPath host f).1.isRunning = f.isRunning := by
  unfold detectFiveMPath
  simp only [FiveMCacheCleaner.log, FiveMCacheCleaner.emit]
  cases host.OpenKey registryPath with
  | some e => rfl
  | none =>
    cases host.GetStringValue registryPath "" with
    | error e => rfl
    | ok value =>
      simp only
      split_ifs <;> rfl

/-- The body of `cleanCache` never writes the flag `isRunning`. -/
theorem cleanCacheBody_isRunning (host : Host FS) (f : FiveMCacheCleaner FS) :
    (cleanCacheBody host f).state.isRunning = f.isRunning := by
  have h1 := detectFiveMPath_isRunning host ((f.updateButtonState false "Cleaning...").clearLog)
  unfold cleanCacheBody
  simp only
  rcases hd : detectFiveMPath host ((f.updateButtonState false "Cleaning...").clearLog)
    with ⟨g, e⟩
  rw [hd] at h1
  cases e with
  | some err => exact h1
  | none =>
    simp only
    have h2 := cleanCacheFolders_isRunning host g
    cases hc : cleanCacheFolders host g with
    | returned g2 => exact absurd hc (cleanCacheFolders_never_returns host g g2)
    | exited c g2 =>
      rw [hc] at h2
      exact h2.trans h1
    | panicked m g2 =>
      rw [hc] at h2
      exact h2.trans h1

/-- C10: with `isRunning` set, `cleanCache` returns at once with the state
untouched (flag, discovered paths, file system, and no effect recorded: no log
line, no button update).  With `isRunning` clear, the body (button update, log
reset, locator, cleaning) is run on the state whose flag is `true` and whose
only new effect is that write; no part of the body writes the flag, so it is
`true` throughout the body, and a further invocation made after the locator,
the cleaning pass or the whole of `cleanCacheFolders` has run from such a state
is the no-op of the first sentence.  Whenever the call returns (or unwinds from a
panic) the flag is `false` again and the reset is the last effect.  The call
returns whenever the locator fails; otherwise the process ends inside
`cleanCacheFolders`, and at an exit the flag is still `true`. -/
theorem cleanCache_guard (host : Host FS) (f : FiveMCacheCleaner FS) :
    (f.isRunning = true → cleanCache host f = .returned f) ∧
    (f.isRunning = false →
      cleanCache host f =
        (match cleanCacheBody host
            { f with isRunning := true, trace := f.trace ++ [Event.running true] } with
          | .returned g =>
            .returned { g with isRunning := false, trace := g.trace ++ [Event.running false] }
          | .panicked e g =>
            .panicked e { g with isRunning := false, trace := g.trace ++ [Event.running false] }
          | .exited c g => .exited c g) ∧
      (∃ rest, (cleanCache host f).state.trace = f.trace ++ Event.running true :: rest) ∧
      (∀ g, cleanCache host f = .returned g →
        g.isRunning = false ∧ g.trace.getLast? = some (Event.running false)) ∧
      (∀ e g, cleanCache host f = .panicked e g →
        g.isRunning = false ∧ g.trace.getLast? = some (Event.running false)) ∧
      (∀ c g, cleanCache host f = .exited c g → g.isRunning = true) ∧
      ((detectFiveMPath host f).2 ≠ none → ∃ g, cleanCache host f = .returned g) ∧
      ((detectFiveMPath host f).2 = none → ∀ g, cleanCache host f ≠ .returned g)) ∧
    (∀ g : FiveMCacheCleaner FS,
      (detectFiveMPath host g).1.isRunning = g.isRunning ∧
      (cleaningPass host g).isRunning = g.isRunning ∧
      (cleanCacheFolders host g).state.isRunning = g.isRunning ∧
      (cleanCacheBody host g).state.isRunning = g.isRunning) ∧
    (∀ g : FiveMCacheCleaner FS, g.isRunning = true →
      cleanCache host (detectFiveMPath host g).1 = .returned (detectFiveMPath host g).1 ∧
      cleanCache host (cleaningPass host g) = .returned (cleaningPass host g) ∧
      cleanCache host (cleanCacheFolders host g).state
        = .returned (cleanCacheFolders host g).state) := by
  have hnoop : ∀ k : FiveMCacheCleaner FS, k.isRunning = true →
      cleanCache host k = .returned k := fun k hk => by simp [cleanCache, hk]
  refine ⟨hnoop f, fun hrun => ?_, fun g =>
    ⟨detectFiveMPath_isRunning host g, cleaningPass_isRunning host g,
      cleanCacheFolders_isRunning host g, cleanCacheBody_isRunning host g⟩,
    fun g hg =>
    ⟨hnoop _ ((detectFiveMPath_isRunning host g).trans hg),
      hnoop _ ((cleaningPass_isRunning host g).trans hg),
      hnoop _ ((cleanCacheFolders_isRunning host g).trans hg)⟩⟩
  have hset : f.setRunning true
      = { f with isRunning := true, trace := f.trace ++ [Event.running true] } := rfl
  have hdet : (detectFiveMPath host
      (((f.setRunning true).updateButtonState false "Cleaning...").clearLog)).2
        = (detectFiveMPath host f).2 := detectFiveMPath_congr host f _ rfl
  have hbody := cleanCacheBody_trace host (f.setRunning true)
  have hflag := cleanCacheBody_isRunning host (f.setRunning true)
  have hunf : cleanCache host f =
      match cleanCacheBody host (f.setRunning true) with
      | .returned g => .returned (g.setRunning false)
      | .panicked e g => .panicked e (g.setRunning false)
      | .exited c g => .exited c g := by
    simp [cleanCache, hrun]
  refine ⟨?_, ?_, ?_, ?_, ?_, ?_, ?_⟩
  · rw [hunf, hset]
    cases cleanCacheBody host
      { f with isRunning := true, trace := f.trace ++ [Event.running true] } <;> rfl
  · obtain ⟨rest, hrest⟩ := hbody
    rw [hunf]
    cases hb : cleanCacheBody host (f.setRunning true) with
    | returned g =>
      rw [hb] at hrest
      refine ⟨rest ++ [Event.running false], ?_⟩
      simp only [Outcome.state, FiveMCacheCleaner.setRunning] at hrest ⊢
      rw [← hrest]
      simp
    | exited c g =>
      rw [hb] at hrest
      refine ⟨rest, ?_⟩
      simp only [Outcome.state, FiveMCacheCleaner.setRunning] at hrest ⊢
      rw [← hrest]
      simp
    | panicked m g =>
      rw [hb] at hrest
      refine ⟨rest ++ [Event.running false], ?_⟩
      simp only [Outcome.state, FiveMCacheCleaner.setRunning] at hrest ⊢
      rw [← hrest]
      simp
  · intro g hg
    rw [hunf] at hg
    cases hb : cleanCacheBody host (f.setRunning true) with
    | returned g0 =>
      rw [hb] at hg
      simp only [Outcome.returned.injEq] at hg
      subst hg
      simp [FiveMCacheCleaner.setRunning]
    | exited c g0 =>
      rw [hb] at hg
      simp at hg
    | panicked m g0 =>
      rw [hb] at hg
      simp at hg
  · intro e g hg
    rw [hunf] at hg
    cases hb : cleanCacheBody host (f.setRunning true) with
    | returned g0 =>
      rw [hb] at hg
      simp at hg
    | exited c g0 =>
      rw [hb] at hg
      simp at hg
    | panicked m g0 =>
      rw [hb] at hg
      simp only [Outcome.panicked.injEq] at hg
      obtain ⟨_, hg⟩ := hg
      subst hg
      simp [FiveMCacheCleaner.setRunning]
  · intro c g hg
    rw [hunf] at hg
    cases hb : cleanCacheBody host (f.setRunning true) with
    | returned g0 =>
      rw [hb] at hg
      simp at hg
    | exited c0 g0 =>
      rw [hb] at hg hflag
      simp only [Outcome.exited.injEq] at hg
      obtain ⟨_, hg⟩ := hg
      subst hg
      exact hflag
    | panicked m g0 =>
      rw [hb] at hg
      simp at hg
  · intro herr
    rw [hunf]
    unfold cleanCacheBody
    simp only
    rcases hd : detectFiveMPath host
      (((f.setRunning true).updateButtonState false "Cleaning...").clearLog) with ⟨g, e⟩
    rw [hd] at hdet
    cases e with
    | some err => exact ⟨_, rfl⟩
    | none => exact absurd hdet.symm herr
  · intro hok g
    rw [hunf]
    unfold cleanCacheBody
    simp only
    rcases hd : detectFiveMPath host
      (((f.setRunning true).updateButtonState false "Cleaning...").clearLog) with ⟨g1, e⟩
    rw [hd] at hdet
    cases e with
    | some err =>
      rw [hok] at hdet
      simp at hdet
    | none =>
      simp only
      cases hc : cleanCacheFolders host g1 with
      | returned g2 => exact absurd hc (cleanCacheFolders_never_returns host g1 g2)
      | exited c g2 => simp
      | panicked m g2 => simp

/-- Witness for `cleanCache_guard`, three runs on the demo host: with the flag
set nothing happens; with no installation found the call returns with the flag
reset; with an installation found and the relaunch accepted the process exits
with status 0 and the flag still set. -/
theorem cleanCache_guard_witness :
    cleanCache (demoHost "\"C:\\Games\\FiveM.exe\" %1" 6)
        { demoCleaner [("C:\\Games\\FiveM.app\\data", true)] with isRunning := true }
      = .returned { demoCleaner [("C:\\Games\\FiveM.app\\data", true)] with isRunning := true } ∧
    (∃ g, cleanCache (demoHost "\"C:\\Games\\FiveM.exe\" %1" 6) (demoCleaner []) = .returned g ∧
      g.isRunning = false) ∧
    (∃ g, cleanCache (demoHost "\"C:\\Games\\FiveM.exe\" %1" 6)
        (demoCleaner [("C:\\Games\\FiveM.app\\data", true)]) = .exited 0 g ∧
      g.isRunning = true) :=
  let hnone := (cleanCache_guard (demoHost "\"C:\\Games\\FiveM.exe\" %1" 6) (demoCleaner [])).2.1 rfl
  let hfound := (cleanCache_guard (demoHost "\"C:\\Games\\FiveM.exe\" %1" 6)
    (demoCleaner [("C:\\Games\\FiveM.app\\data", true)])).2.1 rfl
  let ⟨g, hg⟩ := hnone.2.2.2.2.2.1 (by decide)
  ⟨(cleanCache_guard (demoHost "\"C:\\Games\\FiveM.exe\" %1" 6)
      { demoCleaner [("C:\\Games\\FiveM.app\\data", true)] with isRunning := true }).1 rfl,
   ⟨g, hg, (hnone.2.2.1 g hg).1⟩,
   ⟨(cleanCache (demoHost "\"C:\\Games\\FiveM.exe\" %1" 6)
        (demoCleaner [("C:\\Games\\FiveM.app\\data", true)])).state,
    rfl, hfound.2.2.2.2.1 0 _ rfl⟩⟩

/-! ### Release checker -/

/-- C1: `CheckVersion(v)` is `false` exactly when the feed was fetched, decoded,
and its `tag_name` equals `v` as a string (no version ordering); when the
fetch or the decode fails it is `true`.  The result is a plain boolean: no
error reaches the caller. -/
theorem CheckVersion_false_iff (h : UpdateHost) (um : UpdateManager) (v : String) :
    (CheckVersion h um v = false ↔
      ∃ body release, h.Get (releaseURL um) = .ok body ∧ h.Decode body = .ok release ∧
        release.TagName = v) ∧
    ((∃ e, h.Get (releaseURL um) = .error e) → CheckVersion h um v = true) ∧
    (∀ body, h.Get (releaseURL um) = .ok body → (∃ e, h.Decode body = .error e) →
      CheckVersion h um v = true) := by
  cases hget : h.Get (releaseURL um) with
  | error e =>
    have hc : CheckVersion h um v = true := by
      simp [CheckVersion, GetLatestVersion, hget]
    simp [hc]
  | ok body =>
    cases hdec : h.Decode body with
    | error e =>
      have hc : CheckVersion h um v = true := by
        simp [CheckVersion, GetLatestVersion, hget, hdec]
      simp [hc, hdec]
    | ok release =>
      have hc : CheckVersion h um v = (v != release.TagName) := by
        simp [CheckVersion, GetLatestVersion, hget, hdec]
      simp only [hc, hdec]
      refine ⟨?_, by simp, ?_⟩
      · constructor
        · intro hne
          have hv : v = release.TagName := by simpa using hne
          exact ⟨body, release, rfl, hdec, hv.symm⟩
        · rintro ⟨b, r, hb, hr, ht⟩
          injection hb with hb
          subst hb
          rw [hdec] at hr
          injection hr with hr
          subst hr
          simp [ht]
      · rintro b hb ⟨e, he⟩
        injection hb with hb
        subst hb
        rw [hdec] at he
        cases he

/-- Witness for `CheckVersion_false_iff`: the feed carries the tag of the
running build. -/
theorem CheckVersion_false_iff_witness :
    CheckVersion (demoUpdateHost demoRelease) ⟨"owner", "repo"⟩ "v1.0.0.7" = false :=
  (CheckVersion_false_iff (demoUpdateHost demoRelease) ⟨"owner", "repo"⟩ "v1.0.0.7").1.mpr
    ⟨"payload", demoRelease, rfl, rfl, rfl⟩

/-- The loop over the assets fails exactly when no asset has the name. -/
theorem scanAssets_error_iff (assets : List ReleaseAsset) (n : String) :
    scanAssets assets n = .error "asset not found" ↔ ∀ a ∈ assets, a.Name ≠ n := by
  induction assets with
  | nil => simp [scanAssets]
  | cons a rest ih =>
    simp only [scanAssets]
    split_ifs with hname
    · simp [hname]
    · simp [hname, ih]

/-- The loop over the assets returns the URL of the first asset with the name. -/
theorem scanAssets_first (pre : List ReleaseAsset) (a : ReleaseAsset) (post : List ReleaseAsset)
    (n : String) (hname : a.Name = n) (hpre : ∀ b ∈ pre, b.Name ≠ n) :
    scanAssets (pre ++ a :: post) n = .ok a.BrowserDownloadURL := by
  induction pre with
  | nil => simp [scanAssets, hname]
  | cons b rest ih =>
    have hb : b.Name ≠ n := hpre b (List.mem_cons_self _ _)
    have hrest : ∀ c ∈ rest, c.Name ≠ n := fun c hc => hpre c (List.mem_cons_of_mem _ hc)
    simp [scanAssets, hb, ih hrest]

/-- A URL returned by the loop belongs to an asset with exactly the name. -/
theorem scanAssets_ok (assets : List ReleaseAsset) (n url : String)
    (hok : scanAssets assets n = .ok url) :
    ∃ a ∈ assets, a.Name = n ∧ a.BrowserDownloadURL = url := by
  induction assets with
  | nil => simp [scanAssets] at hok
  | cons a rest ih =>
    simp only [scanAssets] at hok
    split_ifs at hok with hname
    · injection hok with hok
      exact ⟨a, List.mem_cons_self _ _, hname, hok⟩
    · obtain ⟨b, hb, hbn, hbu⟩ := ih hok
      exact ⟨b, List.mem_cons_of_mem _ hb, hbn, hbu⟩

/-- C7: for a successfully decoded release and an expected name `n`,
`getAssetURL` returns the download URL of the first asset, in list order, whose
name equals `n`; it fails with "asset not found" exactly when no asset has the
name `n`; and any URL it returns belongs to an asset named exactly `n`, so a
name that only contains `n` or differs in case never matches. -/
theorem getAssetURL_exact_match (h : UpdateHost) (um : UpdateManager) (n body : String)
    (release : Release) (hget : h.Get (releaseURL um) = .ok body)
    (hdec : h.Decode body = .ok release) :
    (∀ pre a post, release.Assets = pre ++ a :: post → a.Name = n →
      (∀ b ∈ pre, b.Name ≠ n) → (getAssetURL h um n).2 = .ok a.BrowserDownloadURL) ∧
    ((getAssetURL h um n).2 = .error "asset not found" ↔ ∀ a ∈ release.Assets, a.Name ≠ n) ∧
    (∀ url, (getAssetURL h um n).2 = .ok url →
      ∃ a ∈ release.Assets, a.Name = n ∧ a.BrowserDownloadURL = url) := by
  have hres : (getAssetURL h um n).2 = scanAssets release.Assets n := by
    simp [getAssetURL, hget, hdec]
  rw [hres]
  refine ⟨?_, scanAssets_error_iff _ _, fun url hok => scanAssets_ok _ _ _ hok⟩
  intro pre a post hsplit hname hpre
  rw [hsplit]
  exact scanAssets_first pre a post n hname hpre

/-- Witness for `getAssetURL_exact_match`: among `APP.EXE`, `app.exe.sig` and
two assets named `app.exe`, the first `app.exe` is chosen. -/
theorem getAssetURL_exact_match_witness :
    (getAssetURL (demoUpdateHost demoRelease) ⟨"owner", "repo"⟩ "app.exe").2
      = .ok "https://example.org/app" :=
  (getAssetURL_exact_match (demoUpdateHost demoRelease) ⟨"owner", "repo"⟩ "app.exe" "payload"
    demoRelease rfl rfl).1
    [ { Name := "APP.EXE", BrowserDownloadURL := "https://example.org/upper", TagName := "" },
      { Name := "app.exe.sig", BrowserDownloadURL := "https://example.org/sig", TagName := "" } ]
    { Name := "app.exe", BrowserDownloadURL := "https://example.org/app", TagName := "" }
    [ { Name := "app.exe", BrowserDownloadURL := "https://example.org/second", TagName := "" } ]
    rfl rfl (by decide)

/-! ### Self-updater -/

/-- C8: the script text built by `createAndExecuteUpdateScript` is the echo-off
header followed by exactly five commands in this order: delay, delete `e`, move
`t` to `e`, start `e`, delete the script `update.bat` inside `d`.  The deleted
executable, the target of the move and the started executable are the same path
`e`.  This text is what the method writes to `update.bat` inside `d`, and
the method's only other effect is launching that file. -/
theorem scriptContent_commands (h : UpdateHost) (e t d : String) :
    scriptContent e t (h.Join [d, "update.bat"])
      = renderScript [.delay, .del e, .move t e, .start e, .del (h.Join [d, "update.bat"])] ∧
    (∀ ev ∈ (createAndExecuteUpdateScript h e t d).1,
      ev = .writeFile (h.Join [d, "update.bat"])
            (renderScript [.delay, .del e, .move t e, .start e, .del (h.Join [d, "update.bat"])]) ∨
      ev = .start "cmd" ["/C", h.Join [d, "update.bat"]]) ∧
    (createAndExecuteUpdateScript h e t d).1.head?
      = some (.writeFile (h.Join [d, "update.bat"])
          (renderScript [.delay, .del e, .move t e, .start e, .del (h.Join [d, "update.bat"])])) := by
  have htext : ∀ u : String, scriptContent e t u
      = renderScript [.delay, .del e, .move t e, .start e, .del u] := by
    intro u
    apply String.ext
    simp [scriptContent, Sprintf, sprintfChars, renderScript, BatchCommand.render, String.join,
      String.data_append]
  refine ⟨htext _, ?_, ?_⟩
  · intro ev hev
    unfold createAndExecuteUpdateScript at hev
    simp only [htext] at hev
    split at hev <;> simp at hev <;> simp [hev]
  · unfold createAndExecuteUpdateScript
    simp only [htext]
    split <;> rfl

/-- Witness for `scriptContent_commands`: the script staged next to
`C:\App\cleaner.exe`. -/
theorem scriptContent_commands_witness :
    scriptContent "C:\\App\\cleaner.exe" "C:\\App\\temp_update\\app.exe"
        "C:\\App\\temp_update\\update.bat"
      = "@echo off\ntimeout /t 1 /nobreak >nul\ndel \"C:\\App\\cleaner.exe\"\nmove \"C:\\App\\temp_update\\app.exe\" \"C:\\App\\cleaner.exe\"\nstart \"\" \"C:\\App\\cleaner.exe\"\ndel \"C:\\App\\temp_update\\update.bat\"\n" :=
  (scriptContent_commands (demoUpdateHost demoRelease) "C:\\App\\cleaner.exe"
    "C:\\App\\temp_update\\app.exe" "C:\\App\\temp_update").1.trans rfl

/-- The loop over the assets is a search for the first asset with the name. -/
theorem scanAssets_eq_find (assets : List ReleaseAsset) (n : String) :
    scanAssets assets n =
      match assets.find? (fun x => decide (x.Name = n)) with
      | some asset => .ok asset.BrowserDownloadURL
      | none => .error "asset not found" := by
  induction assets with
  | nil => rfl
  | cons a rest ih =>
    by_cases hname : a.Name = n
    · simp [scanAssets, List.find?, hname]
    · simp [scanAssets, List.find?, hname, ih]

/-- The error messages of the updater, written out. -/
theorem sprintf_update_messages (e : String) :
    Sprintf "failed to get executable path: %v" [e] = "failed to get executable path: " ++ e ∧
    Sprintf "failed to create temp directory: %v" [e] = "failed to create temp directory: " ++ e ∧
    Sprintf "failed to fetch release data: %v" [e] = "failed to fetch release data: " ++ e ∧
    Sprintf "failed to decode release data: %v" [e] = "failed to decode release data: " ++ e ∧
    Sprintf "failed to download asset: %v" [e] = "failed to download asset: " ++ e ∧
    Sprintf "failed to create file: %v" [e] = "failed to create file: " ++ e ∧
    Sprintf "failed to create update script: %v" [e]
      = "failed to create update script: " ++ e := by
  refine ⟨?_, ?_, ?_, ?_, ?_, ?_, ?_⟩ <;>
    · apply String.ext
      simp [Sprintf, sprintfChars, String.data_append]

/-- The run of `DownloadLatestAsset` once steps 1 and 2 have succeeded, by the
result of resolving the asset. -/
theorem DownloadLatestAsset_located (h : UpdateHost) (um : UpdateManager) (a v exe : String)
    (hloc : Located h exe) :
    (∀ e, h.Get (releaseURL um) = .error e →
      DownloadLatestAsset h um a v
        = ([.mkdirAll (tmpDir h exe), .get (releaseURL um)],
            .returned (some ("failed to fetch release data: " ++ e)))) ∧
    (∀ body e, h.Get (releaseURL um) = .ok body → h.Decode body = .error e →
      DownloadLatestAsset h um a v
        = ([.mkdirAll (tmpDir h exe), .get (releaseURL um)],
            .returned (some ("failed to decode release data: " ++ e)))) ∧
    (∀ body release, h.Get (releaseURL um) = .ok body → h.Decode body = .ok release →
      release.Assets.find? (fun x => decide (x.Name = a)) = none →
      DownloadLatestAsset h um a v
        = ([.mkdirAll (tmpDir h exe), .get (releaseURL um)],
            .returned (some "asset not found"))) := by
  obtain ⟨hE, hM⟩ := hloc
  refine ⟨?_, ?_, ?_⟩
  · intro e hG
    simp [DownloadLatestAsset, getAssetURL, hE, hM, hG, (sprintf_update_messages e).2.2.1]
  · intro body e hG hD
    simp [DownloadLatestAsset, getAssetURL, hE, hM, hG, hD,
      (sprintf_update_messages e).2.2.2.1]
  · intro body release hG hD hF
    simp [DownloadLatestAsset, getAssetURL, hE, hM, hG, hD, scanAssets_eq_find, hF]

/-- The run of `DownloadLatestAsset` once steps 1 to 3 have succeeded, by the
results of the calls made for the download. -/
theorem DownloadLatestAsset_resolved (h : UpdateHost) (um : UpdateManager) (a v exe : String)
    (asset : ReleaseAsset) (hres : Resolved h um a exe asset) :
    (∀ e, h.Get asset.BrowserDownloadURL = .error e →
      DownloadLatestAsset h um a v
        = ([.mkdirAll (tmpDir h exe), .get (releaseURL um), .get asset.BrowserDownloadURL],
            .returned (some ("failed to download asset: " ++ e)))) ∧
    (∀ payload e, h.Get asset.BrowserDownloadURL = .ok payload →
      h.Create (tempPath h exe a) = some e →
      DownloadLatestAsset h um a v
        = ([.mkdirAll (tmpDir h exe), .get (releaseURL um), .get asset.BrowserDownloadURL,
            .create (tempPath h exe a)],
            .returned (some ("failed to create file: " ++ e)))) ∧
    (∀ payload e, h.Get asset.BrowserDownloadURL = .ok payload →
      h.Create (tempPath h exe a) = none →
      h.CopyBuffer (tempPath h exe a) payload = some e →
      DownloadLatestAsset h um a v
        = ([.mkdirAll (tmpDir h exe), .get (releaseURL um), .get asset.BrowserDownloadURL,
            .create (tempPath h exe a), .copy (tempPath h exe a)],
            .returned (some e))) := by
  obtain ⟨⟨hE, hM⟩, body, release, hG, hD, hF⟩ := hres
  refine ⟨?_, ?_, ?_⟩
  · intro e hG2
    simp [DownloadLatestAsset, getAssetURL, downloadFile, hE, hM, hG, hD, scanAssets_eq_find,
      hF, hG2, (sprintf_update_messages e).2.2.2.2.1]
  · intro payload e hG2 hC
    simp [DownloadLatestAsset, getAssetURL, downloadFile, hE, hM, hG, hD, scanAssets_eq_find,
      hF, hG2, hC, (sprintf_update_messages e).2.2.2.2.2.1]
  · intro payload e hG2 hC hB
    simp [DownloadLatestAsset, getAssetURL, downloadFile, hE, hM, hG, hD, scanAssets_eq_find,
      hF, hG2, hC, hB]

/-- The run of `DownloadLatestAsset` once steps 1 to 4 have succeeded, by the
results of writing and launching the helper script. -/
theorem DownloadLatestAsset_downloaded (h : UpdateHost) (um : UpdateManager) (a v exe : String)
    (asset : ReleaseAsset) (hdl : Downloaded h um a exe asset) :
    (∀ e, h.WriteFile (h.Join [tmpDir h exe, "update.bat"])
        (scriptContent exe (tempPath h exe a) (h.Join [tmpDir h exe, "update.bat"])) = some e →
      DownloadLatestAsset h um a v
        = ([.mkdirAll (tmpDir h exe), .get (releaseURL um), .get asset.BrowserDownloadURL,
            .create (tempPath h exe a), .copy (tempPath h exe a),
            .writeFile (h.Join [tmpDir h exe, "update.bat"])
              (scriptContent exe (tempPath h exe a) (h.Join [tmpDir h exe, "update.bat"]))],
            .returned (some ("failed to create update script: " ++ e)))) ∧
    (∀ e, h.WriteFile (h.Join [tmpDir h exe, "update.bat"])
        (scriptContent exe (tempPath h exe a) (h.Join [tmpDir h exe, "update.bat"])) = none →
      h.Start "cmd" ["/C", h.Join [tmpDir h exe, "update.bat"]] = some e →
      DownloadLatestAsset h um a v
        = ([.mkdirAll (tmpDir h exe), .get (releaseURL um), .get asset.BrowserDownloadURL,
            .create (tempPath h exe a), .copy (tempPath h exe a),
            .writeFile (h.Join [tmpDir h exe, "update.bat"])
              (scriptContent exe (tempPath h exe a) (h.Join [tmpDir h exe, "update.bat"])),
            .start "cmd" ["/C", h.Join [tmpDir h exe, "update.bat"]]],
            .returned (some e))) ∧
    (h.WriteFile (h.Join [tmpDir h exe, "update.bat"])
        (scriptContent exe (tempPath h exe a) (h.Join [tmpDir h exe, "update.bat"])) = none →
      h.Start "cmd" ["/C", h.Join [tmpDir h exe, "update.bat"]] = none →
      DownloadLatestAsset h um a v
        = ([.mkdirAll (tmpDir h exe), .get (releaseURL um), .get asset.BrowserDownloadURL,
            .create (tempPath h exe a), .copy (tempPath h exe a),
            .writeFile (h.Join [tmpDir h exe, "update.bat"])
              (scriptContent exe (tempPath h exe a) (h.Join [tmpDir h exe, "update.bat"])),
            .start "cmd" ["/C", h.Join [tmpDir h exe, "update.bat"]]],
            .exited 0)) := by
  obtain ⟨⟨⟨hE, hM⟩, body, release, hG, hD, hF⟩, payload, hG2, hC, hB⟩ := hdl
  refine ⟨?_, ?_, ?_⟩
  · intro e hW
    simp [DownloadLatestAsset, getAssetURL, downloadFile, createAndExecuteUpdateScript, hE, hM,
      hG, hD, scanAssets_eq_find, hF, hG2, hC, hB, hW, (sprintf_update_messages e).2.2.2.2.2.2]
  · intro e hW hS
    simp [DownloadLatestAsset, getAssetURL, downloadFile, createAndExecuteUpdateScript, hE, hM,
      hG, hD, scanAssets_eq_find, hF, hG2, hC, hB, hW, hS]
  · intro hW hS
    simp [DownloadLatestAsset, getAssetURL, downloadFile, createAndExecuteUpdateScript, hE, hM,
      hG, hD, scanAssets_eq_find, hF, hG2, hC, hB, hW, hS]

/-- A list of effects checked to hold no script effect holds none. -/
theorem noScript_of_all (l : List UpdateEvent)
    (hall : l.all (fun ev => !ev.isScript) = true) : ∀ ev ∈ l, ev.isScript = false := by
  intro ev hev
  simpa using List.all_eq_true.mp hall ev hev

/-- Every run of `DownloadLatestAsset` is of one of three kinds: an error is
returned before the script step and no script effect happened; the download
succeeded and the script step returned an error; or every step succeeded. -/
theorem DownloadLatestAsset_trichotomy (h : UpdateHost) (um : UpdateManager) (a v : String) :
    ((∃ e, (DownloadLatestAsset h um a v).2 = .returned (some e)) ∧
      ∀ ev ∈ (DownloadLatestAsset h um a v).1, ev.isScript = false) ∨
    ((∃ e, (DownloadLatestAsset h um a v).2 = .returned (some e)) ∧
      ∃ exe asset, Downloaded h um a exe asset) ∨
    AllStepsSucceed h um a := by
  cases hE : h.Executable with
  | error e =>
    have hD : DownloadLatestAsset h um a v
        = ([], .returned (some (Sprintf "failed to get executable path: %v" [e]))) := by
      simp [DownloadLatestAsset, hE]
    exact Or.inl ⟨⟨_, by rw [hD]⟩, by rw [hD]; exact noScript_of_all _ rfl⟩
  | ok exe =>
    cases hM : h.MkdirAll (tmpDir h exe) with
    | some e =>
      have hD : DownloadLatestAsset h um a v
          = ([.mkdirAll (tmpDir h exe)],
              .returned (some (Sprintf "failed to create temp directory: %v" [e]))) := by
        simp [DownloadLatestAsset, hE, hM]
      exact Or.inl ⟨⟨_, by rw [hD]⟩, by rw [hD]; exact noScript_of_all _ rfl⟩
    | none =>
      have hloc : Located h exe := ⟨hE, hM⟩
      have hL := DownloadLatestAsset_located h um a v exe hloc
      cases hG : h.Get (releaseURL um) with
      | error e =>
        have hD := hL.1 e hG
        exact Or.inl ⟨⟨_, by rw [hD]⟩, by rw [hD]; exact noScript_of_all _ rfl⟩
      | ok body =>
        cases hDc : h.Decode body with
        | error e =>
          have hD := hL.2.1 body e hG hDc
          exact Or.inl ⟨⟨_, by rw [hD]⟩, by rw [hD]; exact noScript_of_all _ rfl⟩
        | ok release =>
          cases hF : release.Assets.find? (fun x => decide (x.Name = a)) with
          | none =>
            have hD := hL.2.2 body release hG hDc hF
            exact Or.inl ⟨⟨_, by rw [hD]⟩, by rw [hD]; exact noScript_of_all _ rfl⟩
          | some asset =>
            have hres : Resolved h um a exe asset := ⟨hloc, body, release, hG, hDc, hF⟩
            have hR := DownloadLatestAsset_resolved h um a v exe asset hres
            cases hG2 : h.Get asset.BrowserDownloadURL with
            | error e =>
              have hD := hR.1 e hG2
              exact Or.inl ⟨⟨_, by rw [hD]⟩, by rw [hD]; exact noScript_of_all _ rfl⟩
            | ok payload =>
              cases hC : h.Create (tempPath h exe a) with
              | some e =>
                have hD := hR.2.1 payload e hG2 hC
                exact Or.inl ⟨⟨_, by rw [hD]⟩, by rw [hD]; exact noScript_of_all _ rfl⟩
              | none =>
                cases hB : h.CopyBuffer (tempPath h exe a) payload with
                | some e =>
                  have hD := hR.2.2 payload e hG2 hC hB
                  exact Or.inl ⟨⟨_, by rw [hD]⟩, by rw [hD]; exact noScript_of_all _ rfl⟩
                | none =>
                  have hdl : Downloaded h um a exe asset := ⟨hres, payload, hG2, hC, hB⟩
                  have hS := DownloadLatestAsset_downloaded h um a v exe asset hdl
                  cases hW : h.WriteFile (h.Join [tmpDir h exe, "update.bat"])
                    (scriptContent exe (tempPath h exe a)
                      (h.Join [tmpDir h exe, "update.bat"])) with
                  | some e =>
                    have hD := hS.1 e hW
                    exact Or.inr (Or.inl ⟨⟨_, by rw [hD]⟩, exe, asset, hdl⟩)
                  | none =>
                    cases hSt : h.Start "cmd" ["/C", h.Join [tmpDir h exe, "update.bat"]] with
                    | some e =>
                      have hD := hS.2.1 e hW hSt
                      exact Or.inr (Or.inl ⟨⟨_, by rw [hD]⟩, exe, asset, hdl⟩)
                    | none =>
                      exact Or.inr (Or.inr ⟨exe, asset, hdl, hW, hSt⟩)

/-- C9: `DownloadLatestAsset` runs its five steps in order: locate the running
executable (`os.Executable`); create the scratch directory (`os.MkdirAll`);
resolve the asset URL (fetch the feed, decode it, find the asset by name);
download the asset (fetch it, create the file, copy into it); write and launch
the helper script (`os.WriteFile`, `Start`).  Whichever of these calls is the
first to fail, the method returns a non-nil error built from that failure, its
effects are those up to and including the failing call and none later, and the
process is not ended; the helper script is written or launched only after a
successful download; and the process exits, with status 0, exactly when every
call succeeded. -/
theorem DownloadLatestAsset_steps (h : UpdateHost) (um : UpdateManager) (a v : String) :
    ((DownloadLatestAsset h um a v).2 = .exited 0 ↔ AllStepsSucceed h um a) ∧
    (∀ c, (DownloadLatestAsset h um a v).2 = .exited c → c = 0) ∧
    (¬ AllStepsSucceed h um a → ∃ e, (DownloadLatestAsset h um a v).2 = .returned (some e)) ∧
    (∀ e, h.Executable = .error e →
      DownloadLatestAsset h um a v
        = ([], .returned (some ("failed to get executable path: " ++ e)))) ∧
    (∀ exe e, h.Executable = .ok exe → h.MkdirAll (tmpDir h exe) = some e →
      DownloadLatestAsset h um a v
        = ([.mkdirAll (tmpDir h exe)],
            .returned (some ("failed to create temp directory: " ++ e)))) ∧
    (∀ exe, Located h exe →
      (∀ e, h.Get (releaseURL um) = .error e →
        DownloadLatestAsset h um a v
          = ([.mkdirAll (tmpDir h exe), .get (releaseURL um)],
              .returned (some ("failed to fetch release data: " ++ e)))) ∧
      (∀ body e, h.Get (releaseURL um) = .ok body → h.Decode body = .error e →
        DownloadLatestAsset h um a v
          = ([.mkdirAll (tmpDir h exe), .get (releaseURL um)],
              .returned (some ("failed to decode release data: " ++ e)))) ∧
      (∀ body release, h.Get (releaseURL um) = .ok body → h.Decode body = .ok release →
        release.Assets.find? (fun x => decide (x.Name = a)) = none →
        DownloadLatestAsset h um a v
          = ([.mkdirAll (tmpDir h exe), .get (releaseURL um)],
              .returned (some "asset not found")))) ∧
    (∀ exe asset, Resolved h um a exe asset →
      (∀ e, h.Get asset.BrowserDownloadURL = .error e →
        DownloadLatestAsset h um a v
          = ([.mkdirAll (tmpDir h exe), .get (releaseURL um), .get asset.BrowserDownloadURL],
              .returned (some ("failed to download asset: " ++ e)))) ∧
      (∀ payload e, h.Get asset.BrowserDownloadURL = .ok payload →
        h.Create (tempPath h exe a) = some e →
        DownloadLatestAsset h um a v
          = ([.mkdirAll (tmpDir h exe), .get (releaseURL um), .get asset.BrowserDownloadURL,
              .create (tempPath h exe a)],
              .returned (some ("failed to create file: " ++ e)))) ∧
      (∀ payload e, h.Get asset.BrowserDownloadURL = .ok payload →
        h.Create (tempPath h exe a) = none →
        h.CopyBuffer (tempPath h exe a) payload = some e →
        DownloadLatestAsset h um a v
          = ([.mkdirAll (tmpDir h exe), .get (releaseURL um), .get asset.BrowserDownloadURL,
              .create (tempPath h exe a), .copy (tempPath h exe a)],
              .returned (some e)))) ∧
    (∀ exe asset, Downloaded h um a exe asset →
      (∀ e, h.WriteFile (h.Join [tmpDir h exe, "update.bat"])
          (scriptContent exe (tempPath h exe a) (h.Join [tmpDir h exe, "update.bat"]))
            = some e →
        DownloadLatestAsset h um a v
          = ([.mkdirAll (tmpDir h exe), .get (releaseURL um), .get asset.BrowserDownloadURL,
              .create (tempPath h exe a), .copy (tempPath h exe a),
              .writeFile (h.Join [tmpDir h exe, "update.bat"])
                (scriptContent exe (tempPath h exe a) (h.Join [tmpDir h exe, "update.bat"]))],
              .returned (some ("failed to create update script: " ++ e)))) ∧
      (∀ e, h.WriteFile (h.Join [tmpDir h exe, "update.bat"])
          (scriptContent exe (tempPath h exe a) (h.Join [tmpDir h exe, "update.bat"]))
            = none →
        h.Start "cmd" ["/C", h.Join [tmpDir h exe, "update.bat"]] = some e →
        DownloadLatestAsset h um a v
          = ([.mkdirAll (tmpDir h exe), .get (releaseURL um), .get asset.BrowserDownloadURL,
              .create (tempPath h exe a), .copy (tempPath h exe a),
              .writeFile (h.Join [tmpDir h exe, "update.bat"])
                (scriptContent exe (tempPath h exe a) (h.Join [tmpDir h exe, "update.bat"])),
              .start "cmd" ["/C", h.Join [tmpDir h exe, "update.bat"]]],
              .returned (some e))) ∧
      (h.WriteFile (h.Join [tmpDir h exe, "update.bat"])
          (scriptContent exe (tempPath h exe a) (h.Join [tmpDir h exe, "update.bat"]))
            = none →
        h.Start "cmd" ["/C", h.Join [tmpDir h exe, "update.bat"]] = none →
        DownloadLatestAsset h um a v
          = ([.mkdirAll (tmpDir h exe), .get (releaseURL um), .get asset.BrowserDownloadURL,
              .create (tempPath h exe a), .copy (tempPath h exe a),
              .writeFile (h.Join [tmpDir h exe, "update.bat"])
                (scriptContent exe (tempPath h exe a) (h.Join [tmpDir h exe, "update.bat"])),
              .start "cmd" ["/C", h.Join [tmpDir h exe, "update.bat"]]],
              .exited 0))) ∧
    ((∃ ev ∈ (DownloadLatestAsset h um a v).1, ev.isScript = true) →
      ∃ exe asset, Downloaded h um a exe asset) := by
  have hall : AllStepsSucceed h um a → (DownloadLatestAsset h um a v).2 = .exited 0 := by
    rintro ⟨exe, asset, hdl, hW, hS⟩
    rw [(DownloadLatestAsset_downloaded h um a v exe asset hdl).2.2 hW hS]
  have htri := DownloadLatestAsset_trichotomy h um a v
  refine ⟨⟨?_, hall⟩, ?_, ?_, ?_, ?_, ?_, ?_, ?_, ?_⟩
  · intro hex
    rcases htri with ⟨⟨e, he⟩, _⟩ | ⟨⟨e, he⟩, _⟩ | hs
    · rw [he] at hex
      cases hex
    · rw [he] at hex
      cases hex
    · exact hs
  · intro c hex
    rcases htri with ⟨⟨e, he⟩, _⟩ | ⟨⟨e, he⟩, _⟩ | hs
    · rw [he] at hex
      cases hex
    · rw [he] at hex
      cases hex
    · rw [hall hs] at hex
      injection hex with hc
      exact hc.symm
  · intro hnot
    rcases htri with ⟨he, _⟩ | ⟨he, _⟩ | hs
    · exact he
    · exact he
    · exact absurd hs hnot
  · intro e hE
    simp [DownloadLatestAsset, hE, (sprintf_update_messages e).1]
  · intro exe e hE hM
    simp [DownloadLatestAsset, hE, hM, (sprintf_update_messages e).2.1]
  · intro exe hloc
    exact DownloadLatestAsset_located h um a v exe hloc
  · intro exe asset hres
    exact DownloadLatestAsset_resolved h um a v exe asset hres
  · intro exe asset hdl
    exact DownloadLatestAsset_downloaded h um a v exe asset hdl
  · rintro ⟨ev, hev, hscript⟩
    rcases htri with ⟨_, hno⟩ | ⟨_, hdl⟩ | ⟨exe, asset, hdl, _, _⟩
    · rw [hno ev hev] at hscript
      cases hscript
    · exact hdl
    · exact ⟨exe, asset, hdl⟩

/-- Witness for `DownloadLatestAsset_steps`, three runs on the demo host: when
`os.Create` fails the error is returned and no script is written or launched;
when `os.WriteFile` fails the error is returned and nothing is launched; when
every call succeeds the process exits with status 0. -/
theorem DownloadLatestAsset_steps_witness :
    DownloadLatestAsset (demoFaultyHost demoRelease (some "Access is denied.") none none none)
        ⟨"owner", "repo"⟩ "app.exe" "v1.0.0.6"
      = ([.mkdirAll "C:\\App\\temp_update",
          .get "https://api.github.com/repos/owner/repo/releases/latest",
          .get "https://example.org/app",
          .create "C:\\App\\temp_update\\app.exe"],
         .returned (some "failed to create file: Access is denied.")) ∧
    (DownloadLatestAsset (demoFaultyHost demoRelease none none (some "disk full") none)
        ⟨"owner", "repo"⟩ "app.exe" "v1.0.0.6").2
      = .returned (some "failed to create update script: disk full") ∧
    (DownloadLatestAsset (demoFaultyHost demoRelease none none none none)
        ⟨"owner", "repo"⟩ "app.exe" "v1.0.0.6").2 = .exited 0 :=
  ⟨((DownloadLatestAsset_steps (demoFaultyHost demoRelease (some "Access is denied.") none none
        none) ⟨"owner", "repo"⟩ "app.exe" "v1.0.0.6").2.2.2.2.2.2.1 "C:\\App\\cleaner.exe"
      { Name := "app.exe", BrowserDownloadURL := "https://example.org/app", TagName := "" }
      ⟨⟨rfl, rfl⟩, "payload", demoRelease, rfl, rfl, rfl⟩).2.1 "payload" "Access is denied."
      rfl rfl,
   congrArg Prod.snd
    (((DownloadLatestAsset_steps (demoFaultyHost demoRelease none none (some "disk full") none)
        ⟨"owner", "repo"⟩ "app.exe" "v1.0.0.6").2.2.2.2.2.2.2.1 "C:\\App\\cleaner.exe"
      { Name := "app.exe", BrowserDownloadURL := "https://example.org/app", TagName := "" }
      ⟨⟨⟨rfl, rfl⟩, "payload", demoRelease, rfl, rfl, rfl⟩, "payload", rfl, rfl, rfl⟩).1
      "disk full" rfl),
   (DownloadLatestAsset_steps (demoFaultyHost demoRelease none none none none)
        ⟨"owner", "repo"⟩ "app.exe" "v1.0.0.6").1.mpr
      ⟨"C:\\App\\cleaner.exe",
        { Name := "app.exe", BrowserDownloadURL := "https://example.org/app", TagName := "" },
        ⟨⟨⟨rfl, rfl⟩, "payload", demoRelease, rfl, rfl, rfl⟩, "payload", rfl, rfl, rfl⟩,
        rfl, rfl⟩⟩

end FiveM
